import Mathlib

/-!
Shallow embedding of the Salesforce SDK core (`src/lib/helpers/engine.ts`):
the static `CacheProvider` key/value store and the `Engine` class, which
wraps an external session provider (the vendor `jsforce` client) behind a
process-wide memoization cache.

The vendor client is not part of this repository; it is modelled as an
oracle (`Provider`) of deterministic functions, following the spec's
external-interface section.  Every provider round trip is recorded in a
ghost trace (`PEvent` list) carried in the `State`, so that the
"exactly one provider call per key" properties can be stated as facts
about the trace.
-/

/-- Credential object `{username, password}` passed to `Engine.login`. -/
structure Credential where
  username : String
  password : String
deriving DecidableEq, Repr

/-- Connection handle returned by the external provider (`jsforce.Connection`
after `conn.login` ran).  `instanceUrl`, `accessToken` and `userInfo.id`
(here `userId`) are the fields the Engine reads.  `tag` distinguishes
otherwise-identical handles so that "the identical session handle" is a
meaningful identity statement. -/
structure Conn where
  instanceUrl : String
  accessToken : String
  userId : String
  tag : Nat
deriving DecidableEq, Repr

/-- Field-describe metadata returned by the provider `describe` call
(`meta` in the source); `Engine.getAllFields` reads `.fields`,
`Engine.describeObject` caches the whole value. -/
structure Meta where
  name : String
  fields : List String
deriving DecidableEq, Repr

/-- Save-result envelope for the mutation operations; the source checks
`ret.success` explicitly. -/
structure SaveResult where
  success : Bool
  id : String
deriving DecidableEq, Repr

/-- Opaque provider error object (the `err` handed to callbacks). -/
abbrev PErr := String

/-- Records payload of the mutation operations, opaque to the Engine. -/
abbrev Records := List String

/-- Rejection values observable from a failed Engine promise.
`perr e` is a rejection with the provider's error object `e` itself.
`jsUndefined` is a rejection whose value is `undefined`: the source produces it
by `reject(console.error(err))` (the return value of `console.error`) and
by `reject(err)` when `err` is null but `ret.success` is false.
`unauthenticated` models the TypeError thrown by `credential.username`
when `login` receives `undefined` (no credential was ever stored); the
spec calls this state UnauthenticatedState.  `typeError` models attribute
access on a cached value that is not a connection handle (unreachable
from the initial state). -/
inductive Reject where
  | perr (e : PErr)
  | jsUndefined
  | unauthenticated
  | typeError
deriving DecidableEq, Repr

/-- Values stored in the cache or resolved by Engine promises.
`jsUndefined` is the JS `undefined` stored as a present value
(`cacheData[key] = undefined` makes `hasOwnProperty` true): the
`describeObject` error path writes it by running
`setCache(objectInfoKey, meta)` with `meta` undefined. -/
inductive Value where
  | cred (c : Credential)
  | conn (c : Conn)
  | sobjects (l : List String)
  | fields (l : List String)
  | meta (m : Meta)
  | queryResult (rows : List String)
  | saveResult (r : SaveResult)
  | jsUndefined
deriving DecidableEq, Repr

/-- The cache backing store (`private static cacheData = {}` in the
source): an association list, newest entry first, in which `setCache`
removes any shadowed entry so that a key occurs at most once. -/
abbrev Cache := List (String × Value)

namespace CacheProvider

/-- `getCache(key)`: the stored value, or `none` for `undefined`. -/
def getCache (c : Cache) (key : String) : Option Value :=
  (c.find? (fun p => p.1 == key)).map Prod.snd

/-- `setCache(key, data)`: unconditionally overwrite the entry for `key`. -/
def setCache (c : Cache) (key : String) (v : Value) : Cache :=
  (key, v) :: c.filter (fun p => p.1 != key)

/-- `hasCache(key)`: `cacheData.hasOwnProperty(key)`. -/
def hasCache (c : Cache) (key : String) : Bool :=
  c.any (fun p => p.1 == key)

/-- `deleteCache(key)`: removes the entry if present, no-op otherwise
(the source guards the removal with `hasCache`). -/
def deleteCache (c : Cache) (key : String) : Cache :=
  if hasCache c key then c.filter (fun p => p.1 != key) else c

end CacheProvider

/-- Ghost record of one provider round trip (or one `console.error` log).
`describeFieldsReq` and `describeInfoReq` are both `conn.describe`
requests on the wire; the constructor records the call site
(`getAllFields` resp. `describeObject`) as instrumentation so that
per-method request counts can be stated. -/
inductive PEvent where
  | connectReq (loginUrl : Option String) (c : Credential)
  | describeGlobalReq (userId : String)
  | describeFieldsReq (objectName : String) (userId : String)
  | describeInfoReq (objectName : String) (userId : String)
  | queryReq (soql : String)
  | createReq (object : String) (r : Records)
  | updateReq (object : String) (r : Records)
  | upsertReq (object : String) (extId : String) (r : Records)
  | destroyReq (object : String) (r : Records)
  | consoleError (e : PErr)
deriving DecidableEq, Repr

/-- Process state: the static cache plus the ghost trace of provider calls. -/
structure State where
  cache : Cache
  trace : List PEvent
deriving DecidableEq, Repr

/-- The empty state at process start. -/
def initState : State := ⟨[], []⟩

/-- The external session provider (vendor client), modelled as a
deterministic oracle.  `connect` always yields a connection handle and
optionally an error, matching the login path in which the handle object
exists regardless of whether authentication succeeded. -/
structure Provider where
  connect : Option String → Credential → Conn × Option PErr
  describeGlobal : Conn → Except PErr (List String)
  describe : Conn → String → Except PErr Meta
  query : Conn → String → Except PErr (List String)
  create : Conn → String → Records → Except PErr SaveResult
  update : Conn → String → Records → Except PErr SaveResult
  upsert : Conn → String → String → Records → Except PErr SaveResult
  destroy : Conn → String → Records → Except PErr SaveResult

/-- The Engine's only own field: `private defaultLoginUrl: string | undefined`. -/
structure Engine where
  defaultLoginUrl : Option String
deriving DecidableEq, Repr

/-- Character-wise lowercasing, modelling `environment.toLowerCase()`
(identical to `String.toLower` = `map Char.toLower`, but structurally
recursive so concrete instances evaluate in the kernel). -/
def toLowerCase (s : String) : String := ⟨s.data.map Char.toLower⟩

namespace Engine

/-- The `Engine` constructor: validates the environment selector and fixes
the login endpoint.  Throwing `new Error(...)` is modelled as `Except.error`
with the source's message; the constructor touches no provider or cache
state, which is visible in the type.  The trailing `.ok ⟨none⟩` case
mirrors the source, where `defaultLoginUrl` would stay `undefined` if
neither branch matched. -/
def construct (environment : String) : Except String Engine :=
  if toLowerCase environment != "production" && toLowerCase environment != "sandbox" then
    .error "Invalid org type !, your org type should be production or sandbox."
  else
    if toLowerCase environment == "production" then
      .ok { defaultLoginUrl := some "https://login.salesforce.com/" }
    else if toLowerCase environment == "sandbox" then
      .ok { defaultLoginUrl := some "https://test.salesforce.com/" }
    else
      .ok { defaultLoginUrl := none }

/-- `login(credential)`.  A `none` credential models calling
`login(undefined)` (via `getCache('currentCredentials')` before any login):
the very first line `credential.username` then throws, before any state
is touched.  Otherwise: store `currentCredentials`, and if no connection
is cached under `con:<username>`, request one from the provider — logging
but swallowing a reported error — and cache the handle; finally return
`getCache(userKey)`. -/
def login (eng : Engine) (p : Provider) (credential : Option Credential) (s : State) :
    Except Reject (Option Value) × State :=
  match credential with
  | none => (.error .unauthenticated, s)
  | some cred =>
    let userKey := "con:" ++ cred.username
    let s1 : State := { s with cache := CacheProvider.setCache s.cache "currentCredentials" (.cred cred) }
    if CacheProvider.hasCache s1.cache userKey then
      (.ok (CacheProvider.getCache s1.cache userKey), s1)
    else
      let pr := p.connect eng.defaultLoginUrl cred
      let s2 : State := { s1 with trace := s1.trace ++ [.connectReq eng.defaultLoginUrl cred] }
      let s3 : State :=
        match pr.2 with
        | some e => { s2 with trace := s2.trace ++ [.consoleError e] }
        | none => s2
      let s4 : State := { s3 with cache := CacheProvider.setCache s3.cache userKey (.conn pr.1) }
      (.ok (CacheProvider.getCache s4.cache userKey), s4)

end Engine

/-- Reads the credential stored under `currentCredentials`.  Only `login`
writes this key and it always writes a credential, so on reachable states
a non-credential value never occurs; it is mapped to `none` (the
`login(undefined)` failure path) for totality. -/
def getCurrentCred (c : Cache) : Option Credential :=
  match CacheProvider.getCache c "currentCredentials" with
  | some (.cred cr) => some cr
  | _ => none

namespace Engine

/-- The shared first line of every other Engine method:
`const conn = await this.login(CacheProvider.getCache('currentCredentials'))`,
followed by the first attribute access on `conn` (which would throw if the
cached value were not a connection handle). -/
def loginCurrent (eng : Engine) (p : Provider) (s : State) : Except Reject Conn × State :=
  match Engine.login eng p (getCurrentCred s.cache) s with
  | (.error e, s1) => (.error e, s1)
  | (.ok (some (.conn conn)), s1) => (.ok conn, s1)
  | (.ok _, s1) => (.error .typeError, s1)

/-- `getLoginUrl()`: re-login with the stored credential, then concatenate
`instanceUrl`, the fixed frontdoor path and the access token. -/
def getLoginUrl (eng : Engine) (p : Provider) (s : State) : Except Reject String × State :=
  match Engine.loginCurrent eng p s with
  | (.error e, s1) => (.error e, s1)
  | (.ok conn, s1) =>
    (.ok (conn.instanceUrl ++ "//secur/frontdoor.jsp?sid=" ++ conn.accessToken), s1)

/-- `getAllObject()`: memoized global describe under `objectList:<userId>`.
On provider error the promise was already rejected with `err` when the
callback's `res.sobjects` access throws, so no cache write happens. -/
def getAllObject (eng : Engine) (p : Provider) (s : State) :
    Except Reject (Option Value) × State :=
  match Engine.loginCurrent eng p s with
  | (.error e, s1) => (.error e, s1)
  | (.ok conn, s1) =>
    let objectListKey := "objectList:" ++ conn.userId
    if CacheProvider.hasCache s1.cache objectListKey then
      (.ok (CacheProvider.getCache s1.cache objectListKey), s1)
    else
      let s2 : State := { s1 with trace := s1.trace ++ [.describeGlobalReq conn.userId] }
      match p.describeGlobal conn with
      | .error e => (.error (.perr e), s2)
      | .ok res =>
        let s3 : State := { s2 with cache := CacheProvider.setCache s2.cache objectListKey (.sobjects res) }
        (.ok (some (.sobjects res)), s3)

/-- `getAllFields(objectName)`: memoized field describe under
`objectFields:<objectName>:<userId>`; on provider error `meta.fields`
throws after the rejection, so no cache write happens. -/
def getAllFields (eng : Engine) (p : Provider) (objectName : String) (s : State) :
    Except Reject (Option Value) × State :=
  match Engine.loginCurrent eng p s with
  | (.error e, s1) => (.error e, s1)
  | (.ok conn, s1) =>
    let objectFieldsKey := "objectFields:" ++ (objectName ++ (":" ++ conn.userId))
    if CacheProvider.hasCache s1.cache objectFieldsKey then
      (.ok (CacheProvider.getCache s1.cache objectFieldsKey), s1)
    else
      let s2 : State := { s1 with trace := s1.trace ++ [.describeFieldsReq objectName conn.userId] }
      match p.describe conn objectName with
      | .error e => (.error (.perr e), s2)
      | .ok meta =>
        let s3 : State := { s2 with cache := CacheProvider.setCache s2.cache objectFieldsKey (.fields meta.fields) }
        (.ok (some (.fields meta.fields)), s3)

/-- `describeObject(objectName)`: memoized object describe under
`objectInfo:<objectName>:<userId>`; independent of `getAllFields`.
On provider error the promise was rejected with `err`, but — unlike the
other two describe methods, whose callbacks throw on an attribute access
of the undefined result before caching — the callback then still runs
`CacheProvider.setCache(objectInfoKey, meta)` with `meta` undefined, so
an undefined entry is written under the key (and the trailing
`resolve(meta)` is a no-op on the already-rejected promise). -/
def describeObject (eng : Engine) (p : Provider) (objectName : String) (s : State) :
    Except Reject (Option Value) × State :=
  match Engine.loginCurrent eng p s with
  | (.error e, s1) => (.error e, s1)
  | (.ok conn, s1) =>
    let objectInfoKey := "objectInfo:" ++ (objectName ++ (":" ++ conn.userId))
    if CacheProvider.hasCache s1.cache objectInfoKey then
      (.ok (CacheProvider.getCache s1.cache objectInfoKey), s1)
    else
      let s2 : State := { s1 with trace := s1.trace ++ [.describeInfoReq objectName conn.userId] }
      match p.describe conn objectName with
      | .error e =>
        let s3 : State := { s2 with cache := CacheProvider.setCache s2.cache objectInfoKey .jsUndefined }
        (.error (.perr e), s3)
      | .ok meta =>
        let s3 : State := { s2 with cache := CacheProvider.setCache s2.cache objectInfoKey (.meta meta) }
        (.ok (some (.meta meta)), s3)

/-- `query(soql)`: uncached; on provider error the source runs
`reject(console.error(err))`, i.e. it logs `err` and rejects with
`undefined` (the return value of `console.error`), not with `err`. -/
def query (eng : Engine) (p : Provider) (soql : String) (s : State) :
    Except Reject (Option Value) × State :=
  match Engine.loginCurrent eng p s with
  | (.error e, s1) => (.error e, s1)
  | (.ok conn, s1) =>
    let s2 : State := { s1 with trace := s1.trace ++ [.queryReq soql] }
    match p.query conn soql with
    | .error e =>
      let s3 : State := { s2 with trace := s2.trace ++ [.consoleError e] }
      (.error .jsUndefined, s3)
    | .ok result => (.ok (some (.queryResult result)), s2)

/-- Shared callback logic of the four mutation operations:
`if (err || !ret.success) { reject(err); } resolve(ret);`.
On transport error the rejection value is `err`; with `err` null and
`ret.success` false the rejection value is `undefined`. -/
def mutationResult (r : Except PErr SaveResult) : Except Reject (Option Value) :=
  match r with
  | .error e => .error (.perr e)
  | .ok ret => if ret.success then .ok (some (.saveResult ret)) else .error .jsUndefined

/-- `insert(records, object)`: pass-through to the provider `create`. -/
def insert (eng : Engine) (p : Provider) (records : Records) (object : String) (s : State) :
    Except Reject (Option Value) × State :=
  match Engine.loginCurrent eng p s with
  | (.error e, s1) => (.error e, s1)
  | (.ok conn, s1) =>
    let s2 : State := { s1 with trace := s1.trace ++ [.createReq object records] }
    (mutationResult (p.create conn object records), s2)

/-- `update(records, object)`: pass-through to the provider `update`. -/
def update (eng : Engine) (p : Provider) (records : Records) (object : String) (s : State) :
    Except Reject (Option Value) × State :=
  match Engine.loginCurrent eng p s with
  | (.error e, s1) => (.error e, s1)
  | (.ok conn, s1) =>
    let s2 : State := { s1 with trace := s1.trace ++ [.updateReq object records] }
    (mutationResult (p.update conn object records), s2)

/-- `upsert(records, object, extId)`: pass-through to the provider `upsert`. -/
def upsert (eng : Engine) (p : Provider) (records : Records) (object : String) (extId : String) (s : State) :
    Except Reject (Option Value) × State :=
  match Engine.loginCurrent eng p s with
  | (.error e, s1) => (.error e, s1)
  | (.ok conn, s1) =>
    let s2 : State := { s1 with trace := s1.trace ++ [.upsertReq object extId records] }
    (mutationResult (p.upsert conn object extId records), s2)

/-- `delete(records, object)`: pass-through to the provider `destroy`. -/
def delete (eng : Engine) (p : Provider) (records : Records) (object : String) (s : State) :
    Except Reject (Option Value) × State :=
  match Engine.loginCurrent eng p s with
  | (.error e, s1) => (.error e, s1)
  | (.ok conn, s1) =>
    let s2 : State := { s1 with trace := s1.trace ++ [.destroyReq object records] }
    (mutationResult (p.destroy conn object records), s2)

end Engine

/-- One call of the Engine's public surface. -/
inductive Op where
  | login (c : Credential)
  | getLoginUrl
  | getAllObject
  | getAllFields (objectName : String)
  | describeObject (objectName : String)
  | query (soql : String)
  | insert (records : Records) (object : String)
  | update (records : Records) (object : String)
  | upsert (records : Records) (object : String) (extId : String)
  | delete (records : Records) (object : String)
deriving DecidableEq, Repr

/-- State transition of one public call (the resolved/rejected value is
dropped; only the cache and trace evolution matter for lifetime counts). -/
def step (eng : Engine) (p : Provider) : Op → State → State
  | .login c, s => (Engine.login eng p (some c) s).2
  | .getLoginUrl, s => (Engine.getLoginUrl eng p s).2
  | .getAllObject, s => (Engine.getAllObject eng p s).2
  | .getAllFields o, s => (Engine.getAllFields eng p o s).2
  | .describeObject o, s => (Engine.describeObject eng p o s).2
  | .query q, s => (Engine.query eng p q s).2
  | .insert r o, s => (Engine.insert eng p r o s).2
  | .update r o, s => (Engine.update eng p r o s).2
  | .upsert r o x, s => (Engine.upsert eng p r o x s).2
  | .delete r o, s => (Engine.delete eng p r o s).2

/-- Runs a sequence of public calls. -/
def runOps (eng : Engine) (p : Provider) : List Op → State → State
  | [], s => s
  | op :: ops, s => runOps eng p ops (step eng p op s)

/-- Cache key of the memoized connection for a username (`con:<username>`). -/
def conKey (u : String) : String := "con:" ++ u

/-- Cache key of the memoized global describe (`objectList:<userId>`). -/
def globalKey (uid : String) : String := "objectList:" ++ uid

/-- Cache key of the memoized field describe (`objectFields:<objectName>:<userId>`). -/
def fieldsKey (o uid : String) : String := "objectFields:" ++ (o ++ (":" ++ uid))

/-- Cache key of the memoized object describe (`objectInfo:<objectName>:<userId>`). -/
def infoKey (o uid : String) : String := "objectInfo:" ++ (o ++ (":" ++ uid))

/-- Does this event record a provider connect request for username `u`? -/
def connMatch (u : String) : PEvent → Bool
  | .connectReq _ c => c.username == u
  | _ => false

/-- Does this event record a global describe request whose memo key is `k`? -/
def globalMatch (k : String) : PEvent → Bool
  | .describeGlobalReq uid => globalKey uid == k
  | _ => false

/-- Does this event record a field describe request (from `getAllFields`)
whose memo key is `k`? -/
def fieldsMatch (k : String) : PEvent → Bool
  | .describeFieldsReq o uid => fieldsKey o uid == k
  | _ => false

/-- Does this event record an object describe request (from
`describeObject`) whose memo key is `k`? -/
def infoMatch (k : String) : PEvent → Bool
  | .describeInfoReq o uid => infoKey o uid == k
  | _ => false

/-- Number of provider connect requests issued for username `u`. -/
def connectCount (u : String) (t : List PEvent) : Nat := t.countP (connMatch u)

/-- Number of global describe requests issued for memo key `k`. -/
def globalCount (k : String) (t : List PEvent) : Nat := t.countP (globalMatch k)

/-- Number of `getAllFields` describe requests issued for memo key `k`. -/
def fieldsCount (k : String) (t : List PEvent) : Nat := t.countP (fieldsMatch k)

/-- Number of `describeObject` describe requests issued for memo key `k`. -/
def infoCount (k : String) (t : List PEvent) : Nat := t.countP (infoMatch k)

/-- The SOQL strings of the provider query requests in the trace, in order. -/
def queryCalls (t : List PEvent) : List String :=
  t.filterMap (fun e => match e with | .queryReq q => some q | _ => none)

/-- The provider answers every `describeGlobal` and `describe` request. -/
def AllDescribeOk (p : Provider) : Prop :=
  (∀ conn, ∃ r, p.describeGlobal conn = Except.ok r) ∧
  (∀ conn o, ∃ m, p.describe conn o = Except.ok m)

/-- Connect-memoization invariant: the connection key for `u` is cached
exactly when one connect request for `u` was issued, and never more than
one is issued. -/
def ConnInv (s : State) : Prop :=
  ∀ u, (CacheProvider.hasCache s.cache (conKey u) = true → connectCount u s.trace = 1) ∧
       (CacheProvider.hasCache s.cache (conKey u) = false → connectCount u s.trace = 0)

/-- Describe-memoization invariant for the three describe memo families:
each family's key is cached exactly when one request of that family was
issued for it. -/
def DescInv (s : State) : Prop :=
  (∀ uid, (CacheProvider.hasCache s.cache (globalKey uid) = true →
             globalCount (globalKey uid) s.trace = 1) ∧
          (CacheProvider.hasCache s.cache (globalKey uid) = false →
             globalCount (globalKey uid) s.trace = 0)) ∧
  (∀ o uid, (CacheProvider.hasCache s.cache (fieldsKey o uid) = true →
               fieldsCount (fieldsKey o uid) s.trace = 1) ∧
            (CacheProvider.hasCache s.cache (fieldsKey o uid) = false →
               fieldsCount (fieldsKey o uid) s.trace = 0)) ∧
  (∀ o uid, (CacheProvider.hasCache s.cache (infoKey o uid) = true →
               infoCount (infoKey o uid) s.trace = 1) ∧
            (CacheProvider.hasCache s.cache (infoKey o uid) = false →
               infoCount (infoKey o uid) s.trace = 0))

section StringKeys

/-- Two strings differing at some character position are different. -/
theorem ne_of_data_get (i : Nat) (s t : String) (h : s.data[i]? ≠ t.data[i]?) : s ≠ t :=
  fun he => h (congrArg (fun x => x.data[i]?) he)

/-- A character inside the fixed leading part of a concatenation. -/
theorem data_get_pre (p s : String) (i : Nat) (h : i < p.data.length) :
    (p ++ s).data[i]? = p.data[i]? := by
  rw [String.data_append, List.getElem?_append, if_pos h]

theorem conKey_ne_cc (u : String) : conKey u ≠ "currentCredentials" := by
  apply ne_of_data_get 1
  show ("con:" ++ u).data[1]? ≠ _
  rw [data_get_pre _ _ 1 (by decide)]
  decide

theorem conKey_inj {u v : String} (h : conKey u = conKey v) : u = v := by
  have h2 := congrArg String.data h
  rw [show conKey u = "con:" ++ u from rfl, show conKey v = "con:" ++ v from rfl,
    String.data_append, String.data_append] at h2
  exact String.ext (List.append_cancel_left h2)

theorem globalKey_ne_cc (uid : String) : globalKey uid ≠ "currentCredentials" := by
  apply ne_of_data_get 0
  show ("objectList:" ++ uid).data[0]? ≠ _
  rw [data_get_pre _ _ 0 (by decide)]
  decide

theorem globalKey_ne_con (uid u : String) : globalKey uid ≠ conKey u := by
  apply ne_of_data_get 0
  show ("objectList:" ++ uid).data[0]? ≠ ("con:" ++ u).data[0]?
  rw [data_get_pre _ _ 0 (by decide), data_get_pre _ _ 0 (by decide)]
  decide

theorem fieldsKey_ne_cc (o uid : String) : fieldsKey o uid ≠ "currentCredentials" := by
  apply ne_of_data_get 0
  show ("objectFields:" ++ (o ++ (":" ++ uid))).data[0]? ≠ _
  rw [data_get_pre _ _ 0 (by decide)]
  decide

theorem fieldsKey_ne_con (o uid u : String) : fieldsKey o uid ≠ conKey u := by
  apply ne_of_data_get 0
  show ("objectFields:" ++ (o ++ (":" ++ uid))).data[0]? ≠ ("con:" ++ u).data[0]?
  rw [data_get_pre _ _ 0 (by decide), data_get_pre _ _ 0 (by decide)]
  decide

theorem fieldsKey_ne_global (o uid uid2 : String) : fieldsKey o uid ≠ globalKey uid2 := by
  apply ne_of_data_get 6
  show ("objectFields:" ++ (o ++ (":" ++ uid))).data[6]? ≠ ("objectList:" ++ uid2).data[6]?
  rw [data_get_pre _ _ 6 (by decide), data_get_pre _ _ 6 (by decide)]
  decide

theorem infoKey_ne_cc (o uid : String) : infoKey o uid ≠ "currentCredentials" := by
  apply ne_of_data_get 0
  show ("objectInfo:" ++ (o ++ (":" ++ uid))).data[0]? ≠ _
  rw [data_get_pre _ _ 0 (by decide)]
  decide

theorem infoKey_ne_con (o uid u : String) : infoKey o uid ≠ conKey u := by
  apply ne_of_data_get 0
  show ("objectInfo:" ++ (o ++ (":" ++ uid))).data[0]? ≠ ("con:" ++ u).data[0]?
  rw [data_get_pre _ _ 0 (by decide), data_get_pre _ _ 0 (by decide)]
  decide

theorem infoKey_ne_global (o uid uid2 : String) : infoKey o uid ≠ globalKey uid2 := by
  apply ne_of_data_get 6
  show ("objectInfo:" ++ (o ++ (":" ++ uid))).data[6]? ≠ ("objectList:" ++ uid2).data[6]?
  rw [data_get_pre _ _ 6 (by decide), data_get_pre _ _ 6 (by decide)]
  decide

theorem infoKey_ne_fields (o uid o2 uid2 : String) : infoKey o uid ≠ fieldsKey o2 uid2 := by
  apply ne_of_data_get 6
  show ("objectInfo:" ++ (o ++ (":" ++ uid))).data[6]? ≠
    ("objectFields:" ++ (o2 ++ (":" ++ uid2))).data[6]?
  rw [data_get_pre _ _ 6 (by decide), data_get_pre _ _ 6 (by decide)]
  decide

end StringKeys

section CacheLemmas

open CacheProvider

theorem getCache_setCache_self (c : Cache) (k : String) (v : Value) :
    getCache (setCache c k v) k = some v := by
  simp [getCache, setCache, List.find?]

theorem find_filter_ne (c : Cache) (k k2 : String) (h : k2 ≠ k) :
    (c.filter (fun p => p.1 != k)).find? (fun p => p.1 == k2) =
      c.find? (fun p => p.1 == k2) := by
  induction c with
  | nil => rfl
  | cons a c ih =>
    by_cases hak : a.1 = k
    · have hf : (a.1 != k) = false := by simp [hak]
      have hr : (a.1 == k2) = false := by rw [hak, beq_eq_false_iff_ne]; exact Ne.symm h
      simp only [List.filter_cons, hf, Bool.false_eq_true, if_false, List.find?_cons, hr]
      exact ih
    · have hf : (a.1 != k) = true := by simp [hak]
      simp only [List.filter_cons, hf, if_true, List.find?_cons]
      cases hr : (a.1 == k2) <;> simp [hr, ih]

theorem getCache_setCache_ne (c : Cache) (k k2 : String) (v : Value) (h : k2 ≠ k) :
    getCache (setCache c k v) k2 = getCache c k2 := by
  have h2 : (k == k2) = false := by simp [Ne.symm h]
  simp only [getCache, setCache, List.find?_cons, h2]
  rw [find_filter_ne c k k2 h]

theorem hasCache_setCache_self (c : Cache) (k : String) (v : Value) :
    hasCache (setCache c k v) k = true := by
  simp [hasCache, setCache]

theorem any_filter_ne (c : Cache) (k k2 : String) (h : k2 ≠ k) :
    (c.filter (fun p => p.1 != k)).any (fun p => p.1 == k2) =
      c.any (fun p => p.1 == k2) := by
  induction c with
  | nil => rfl
  | cons a c ih =>
    by_cases hak : a.1 = k
    · have hf : (a.1 != k) = false := by simp [hak]
      have hr : (a.1 == k2) = false := by rw [hak, beq_eq_false_iff_ne]; exact Ne.symm h
      simp only [List.filter_cons, hf, Bool.false_eq_true, if_false, List.any_cons, hr,
        Bool.false_or]
      exact ih
    · have hf : (a.1 != k) = true := by simp [hak]
      simp only [List.filter_cons, hf, if_true, List.any_cons, ih]

theorem hasCache_setCache_ne (c : Cache) (k k2 : String) (v : Value) (h : k2 ≠ k) :
    hasCache (setCache c k v) k2 = hasCache c k2 := by
  have h2 : (k == k2) = false := by simp [Ne.symm h]
  simp only [hasCache, setCache, List.any_cons, h2, Bool.false_or]
  exact any_filter_ne c k k2 h

theorem hasCache_false_getCache (c : Cache) (k : String) (h : hasCache c k = false) :
    getCache c k = none := by
  induction c with
  | nil => rfl
  | cons a c ih =>
    simp only [hasCache, List.any_cons, Bool.or_eq_false_iff] at h
    simp only [getCache, List.find?_cons, h.1]
    exact ih (by simpa [hasCache] using h.2)

theorem hasCache_true_getCache (c : Cache) (k : String) (h : hasCache c k = true) :
    ∃ v, getCache c k = some v := by
  induction c with
  | nil => simp [hasCache] at h
  | cons a c ih =>
    by_cases ha : (a.1 == k) = true
    · exact ⟨a.2, by simp [getCache, List.find?_cons, ha]⟩
    · simp only [hasCache, List.any_cons, ha, Bool.false_or] at h
      obtain ⟨v, hv⟩ := ih (by simpa [hasCache] using h)
      exact ⟨v, by simp only [getCache, List.find?_cons, ha]; simpa [getCache] using hv⟩

end CacheLemmas

section CountLemmas

theorem connectCount_append (u : String) (t1 t2 : List PEvent) :
    connectCount u (t1 ++ t2) = connectCount u t1 + connectCount u t2 :=
  List.countP_append _ _ _

theorem globalCount_append (k : String) (t1 t2 : List PEvent) :
    globalCount k (t1 ++ t2) = globalCount k t1 + globalCount k t2 :=
  List.countP_append _ _ _

theorem fieldsCount_append (k : String) (t1 t2 : List PEvent) :
    fieldsCount k (t1 ++ t2) = fieldsCount k t1 + fieldsCount k t2 :=
  List.countP_append _ _ _

theorem infoCount_append (k : String) (t1 t2 : List PEvent) :
    infoCount k (t1 ++ t2) = infoCount k t1 + infoCount k t2 :=
  List.countP_append _ _ _

theorem countP_single (p : PEvent → Bool) (e : PEvent) :
    List.countP p [e] = if p e then 1 else 0 := by
  by_cases h : p e <;> simp [List.countP_cons, h]

end CountLemmas

section ConnInvariant

open CacheProvider

theorem login_none (eng : Engine) (p : Provider) (s : State) :
    Engine.login eng p none s = (.error .unauthenticated, s) := rfl

theorem loginCurrent_snd (eng : Engine) (p : Provider) (s : State) :
    (Engine.loginCurrent eng p s).2 = (Engine.login eng p (getCurrentCred s.cache) s).2 := by
  unfold Engine.loginCurrent
  rcases hl : Engine.login eng p (getCurrentCred s.cache) s with ⟨r, s1⟩
  match r with
  | .error e => rfl
  | .ok none => rfl
  | .ok (some (.cred c)) => rfl
  | .ok (some (.conn c)) => rfl
  | .ok (some (.sobjects l)) => rfl
  | .ok (some (.fields l)) => rfl
  | .ok (some (.meta m)) => rfl
  | .ok (some (.queryResult l)) => rfl
  | .ok (some (.saveResult r)) => rfl
  | .ok (some .jsUndefined) => rfl

theorem ConnInv_extend (s : State) (h : ConnInv s) (c2 : Cache) (t2 : List PEvent)
    (hc : ∀ u, hasCache c2 (conKey u) = hasCache s.cache (conKey u))
    (ht : ∀ u, connectCount u t2 = connectCount u s.trace) :
    ConnInv ⟨c2, t2⟩ := by
  intro u
  exact ⟨fun hh => (ht u).trans ((h u).1 ((hc u).symm.trans hh)),
    fun hh => (ht u).trans ((h u).2 ((hc u).symm.trans hh))⟩

theorem ConnInv_login (eng : Engine) (p : Provider) (copt : Option Credential) (s : State)
    (h : ConnInv s) : ConnInv (Engine.login eng p copt s).2 := by
  match copt with
  | none => exact h
  | some cred =>
    simp only [Engine.login]
    by_cases hin : hasCache (setCache s.cache "currentCredentials" (.cred cred))
        ("con:" ++ cred.username) = true
    · rw [if_pos hin]
      apply ConnInv_extend s h
      · intro u
        exact hasCache_setCache_ne s.cache "currentCredentials" (conKey u) _ (conKey_ne_cc u)
      · intro u; rfl
    · rw [if_neg hin]
      rcases hp : p.connect eng.defaultLoginUrl cred with ⟨conn, errOpt⟩
      dsimp only
      have hbase : ∀ u, hasCache s.cache (conKey u) =
          hasCache (setCache s.cache "currentCredentials" (.cred cred)) (conKey u) :=
        fun u => (hasCache_setCache_ne s.cache "currentCredentials" (conKey u) _
          (conKey_ne_cc u)).symm
      have hzero : connectCount cred.username s.trace = 0 := by
        apply (h cred.username).2
        rw [hbase cred.username]
        simpa using hin
      have key : ∀ (tExtra : List PEvent),
          (∀ u, connectCount u tExtra = if cred.username = u then 1 else 0) →
          ConnInv ⟨setCache (setCache s.cache "currentCredentials" (.cred cred))
              ("con:" ++ cred.username) (.conn conn), s.trace ++ tExtra⟩ := by
        intro tExtra hx
        intro u
        by_cases hu : u = cred.username
        · constructor
          · intro _
            rw [hu, connectCount_append, hzero, hx cred.username, if_pos rfl]
          · intro hfalse
            rw [hu] at hfalse
            rw [show ("con:" ++ cred.username) = conKey cred.username from rfl,
              hasCache_setCache_self] at hfalse
            cases hfalse
        · have hne : conKey u ≠ conKey cred.username := fun hh => hu (conKey_inj hh)
          have hcu : hasCache (setCache (setCache s.cache "currentCredentials" (.cred cred))
              ("con:" ++ cred.username) (.conn conn)) (conKey u) =
              hasCache s.cache (conKey u) := by
            rw [show ("con:" ++ cred.username) = conKey cred.username from rfl,
              hasCache_setCache_ne _ _ _ _ hne]
            exact (hbase u).symm
          have hcnt : connectCount u (s.trace ++ tExtra) = connectCount u s.trace := by
            rw [connectCount_append, hx u, if_neg (fun hh => hu hh.symm)]
            exact Nat.add_zero _
          constructor
          · intro hh
            rw [hcnt]
            exact (h u).1 (hcu ▸ hh)
          · intro hh
            rw [hcnt]
            exact (h u).2 (hcu ▸ hh)
      match errOpt with
      | none =>
        dsimp only
        apply key
        intro u
        simp only [connectCount, countP_single, connMatch]
        by_cases hu : cred.username = u
        · rw [if_pos (by simpa using hu), if_pos hu]
        · rw [if_neg (by simpa using hu), if_neg hu]
      | some e =>
        dsimp only
        rw [List.append_assoc]
        apply key
        intro u
        simp only [connectCount, List.countP_append, countP_single, connMatch]
        by_cases hu : cred.username = u
        · simp [hu]
        · simp [hu]

end ConnInvariant

section ConnInvSteps

open CacheProvider

theorem connectCount_noconn (u : String) (t : List PEvent) (e : PEvent)
    (he : connMatch u e = false) : connectCount u (t ++ [e]) = connectCount u t := by
  rw [connectCount_append]
  simp [connectCount, countP_single, he]

theorem ConnInv_addEvent (s : State) (h : ConnInv s) (e : PEvent)
    (he : ∀ u, connMatch u e = false) : ConnInv ⟨s.cache, s.trace ++ [e]⟩ :=
  ConnInv_extend s h _ _ (fun _ => rfl) (fun u => connectCount_noconn u s.trace e (he u))

theorem ConnInv_set_add (s : State) (h : ConnInv s) (k : String) (v : Value) (e : PEvent)
    (hk : ∀ u, conKey u ≠ k) (he : ∀ u, connMatch u e = false) :
    ConnInv ⟨setCache s.cache k v, s.trace ++ [e]⟩ :=
  ConnInv_extend s h _ _ (fun u => hasCache_setCache_ne _ _ _ _ (hk u))
    (fun u => connectCount_noconn u s.trace e (he u))

theorem ConnInv_loginCurrent (eng : Engine) (p : Provider) (s : State) (h : ConnInv s) :
    ConnInv (Engine.loginCurrent eng p s).2 := by
  rw [loginCurrent_snd]
  exact ConnInv_login eng p (getCurrentCred s.cache) s h

theorem getLoginUrl_snd (eng : Engine) (p : Provider) (s : State) :
    (Engine.getLoginUrl eng p s).2 = (Engine.loginCurrent eng p s).2 := by
  unfold Engine.getLoginUrl
  rcases hl : Engine.loginCurrent eng p s with ⟨r, s1⟩
  match r with
  | .error e => rfl
  | .ok conn => rfl

theorem ConnInv_getLoginUrl (eng : Engine) (p : Provider) (s : State) (h : ConnInv s) :
    ConnInv (Engine.getLoginUrl eng p s).2 := by
  rw [getLoginUrl_snd]
  exact ConnInv_loginCurrent eng p s h

theorem ConnInv_getAllObject (eng : Engine) (p : Provider) (s : State) (h : ConnInv s) :
    ConnInv (Engine.getAllObject eng p s).2 := by
  have h1 := ConnInv_loginCurrent eng p s h
  unfold Engine.getAllObject
  rcases hl : Engine.loginCurrent eng p s with ⟨r, s1⟩
  rw [hl] at h1
  match r with
  | .error e => exact h1
  | .ok conn =>
    dsimp only
    by_cases hm : hasCache s1.cache ("objectList:" ++ conn.userId) = true
    · rw [if_pos hm]
      exact h1
    · rw [if_neg hm]
      rcases hg : p.describeGlobal conn with e | res
      · exact ConnInv_addEvent s1 h1 _ (fun u => rfl)
      · exact ConnInv_set_add s1 h1 _ _ _ (fun u => globalKey_ne_con conn.userId u |>.symm)
          (fun u => rfl)

theorem ConnInv_getAllFields (eng : Engine) (p : Provider) (o : String) (s : State)
    (h : ConnInv s) : ConnInv (Engine.getAllFields eng p o s).2 := by
  have h1 := ConnInv_loginCurrent eng p s h
  unfold Engine.getAllFields
  rcases hl : Engine.loginCurrent eng p s with ⟨r, s1⟩
  rw [hl] at h1
  match r with
  | .error e => exact h1
  | .ok conn =>
    dsimp only
    by_cases hm : hasCache s1.cache ("objectFields:" ++ (o ++ (":" ++ conn.userId))) = true
    · rw [if_pos hm]
      exact h1
    · rw [if_neg hm]
      rcases hg : p.describe conn o with e | meta
      · exact ConnInv_addEvent s1 h1 _ (fun u => rfl)
      · exact ConnInv_set_add s1 h1 _ _ _ (fun u => fieldsKey_ne_con o conn.userId u |>.symm)
          (fun u => rfl)

theorem ConnInv_describeObject (eng : Engine) (p : Provider) (o : String) (s : State)
    (h : ConnInv s) : ConnInv (Engine.describeObject eng p o s).2 := by
  have h1 := ConnInv_loginCurrent eng p s h
  unfold Engine.describeObject
  rcases hl : Engine.loginCurrent eng p s with ⟨r, s1⟩
  rw [hl] at h1
  match r with
  | .error e => exact h1
  | .ok conn =>
    dsimp only
    by_cases hm : hasCache s1.cache ("objectInfo:" ++ (o ++ (":" ++ conn.userId))) = true
    · rw [if_pos hm]
      exact h1
    · rw [if_neg hm]
      rcases hg : p.describe conn o with e | meta
      · exact ConnInv_set_add s1 h1 _ _ _ (fun u => infoKey_ne_con o conn.userId u |>.symm)
          (fun u => rfl)
      · exact ConnInv_set_add s1 h1 _ _ _ (fun u => infoKey_ne_con o conn.userId u |>.symm)
          (fun u => rfl)

theorem ConnInv_query (eng : Engine) (p : Provider) (q : String) (s : State)
    (h : ConnInv s) : ConnInv (Engine.query eng p q s).2 := by
  have h1 := ConnInv_loginCurrent eng p s h
  unfold Engine.query
  rcases hl : Engine.loginCurrent eng p s with ⟨r, s1⟩
  rw [hl] at h1
  match r with
  | .error e => exact h1
  | .ok conn =>
    dsimp only
    rcases hg : p.query conn q with e | res
    · dsimp only
      rw [List.append_assoc]
      apply ConnInv_extend s1 h1 _ _ (fun _ => rfl)
      intro u
      simp [connectCount, List.countP_append, countP_single, connMatch]
    · exact ConnInv_addEvent s1 h1 _ (fun u => rfl)

theorem ConnInv_insert (eng : Engine) (p : Provider) (r0 : Records) (o : String) (s : State)
    (h : ConnInv s) : ConnInv (Engine.insert eng p r0 o s).2 := by
  have h1 := ConnInv_loginCurrent eng p s h
  unfold Engine.insert
  rcases hl : Engine.loginCurrent eng p s with ⟨r, s1⟩
  rw [hl] at h1
  match r with
  | .error e => exact h1
  | .ok conn => exact ConnInv_addEvent s1 h1 _ (fun u => rfl)

theorem ConnInv_update (eng : Engine) (p : Provider) (r0 : Records) (o : String) (s : State)
    (h : ConnInv s) : ConnInv (Engine.update eng p r0 o s).2 := by
  have h1 := ConnInv_loginCurrent eng p s h
  unfold Engine.update
  rcases hl : Engine.loginCurrent eng p s with ⟨r, s1⟩
  rw [hl] at h1
  match r with
  | .error e => exact h1
  | .ok conn => exact ConnInv_addEvent s1 h1 _ (fun u => rfl)

theorem ConnInv_upsert (eng : Engine) (p : Provider) (r0 : Records) (o x : String) (s : State)
    (h : ConnInv s) : ConnInv (Engine.upsert eng p r0 o x s).2 := by
  have h1 := ConnInv_loginCurrent eng p s h
  unfold Engine.upsert
  rcases hl : Engine.loginCurrent eng p s with ⟨r, s1⟩
  rw [hl] at h1
  match r with
  | .error e => exact h1
  | .ok conn => exact ConnInv_addEvent s1 h1 _ (fun u => rfl)

theorem ConnInv_delete (eng : Engine) (p : Provider) (r0 : Records) (o : String) (s : State)
    (h : ConnInv s) : ConnInv (Engine.delete eng p r0 o s).2 := by
  have h1 := ConnInv_loginCurrent eng p s h
  unfold Engine.delete
  rcases hl : Engine.loginCurrent eng p s with ⟨r, s1⟩
  rw [hl] at h1
  match r with
  | .error e => exact h1
  | .ok conn => exact ConnInv_addEvent s1 h1 _ (fun u => rfl)

theorem ConnInv_step (eng : Engine) (p : Provider) (op : Op) (s : State) (h : ConnInv s) :
    ConnInv (step eng p op s) := by
  match op with
  | .login c => exact ConnInv_login eng p (some c) s h
  | .getLoginUrl => exact ConnInv_getLoginUrl eng p s h
  | .getAllObject => exact ConnInv_getAllObject eng p s h
  | .getAllFields o => exact ConnInv_getAllFields eng p o s h
  | .describeObject o => exact ConnInv_describeObject eng p o s h
  | .query q => exact ConnInv_query eng p q s h
  | .insert r o => exact ConnInv_insert eng p r o s h
  | .update r o => exact ConnInv_update eng p r o s h
  | .upsert r o x => exact ConnInv_upsert eng p r o x s h
  | .delete r o => exact ConnInv_delete eng p r o s h

theorem ConnInv_runOps (eng : Engine) (p : Provider) (ops : List Op) (s : State)
    (h : ConnInv s) : ConnInv (runOps eng p ops s) := by
  induction ops generalizing s with
  | nil => exact h
  | cons op ops ih => exact ih _ (ConnInv_step eng p op s h)

theorem ConnInv_init : ConnInv initState := by
  intro u
  constructor
  · intro hh
    cases hh
  · intro _
    rfl

end ConnInvSteps

section DescInvariant

open CacheProvider

/-- Events produced by the login path (a connect request or an error log). -/
def connectOrLog (e : PEvent) : Prop :=
  (∃ url c, e = PEvent.connectReq url c) ∨ (∃ er, e = PEvent.consoleError er)

/-- Shape of the state after `login` with a present credential: either the
cached branch (only `currentCredentials` is rewritten) or the connect
branch (additionally the connection key is written and only
connect/console events are appended). -/
theorem login_state_cases (eng : Engine) (p : Provider) (cred : Credential) (s : State) :
    (Engine.login eng p (some cred) s).2 =
      ⟨setCache s.cache "currentCredentials" (.cred cred), s.trace⟩ ∨
    ∃ (conn : Conn) (es : List PEvent),
      (Engine.login eng p (some cred) s).2 =
        ⟨setCache (setCache s.cache "currentCredentials" (.cred cred))
          ("con:" ++ cred.username) (.conn conn), s.trace ++ es⟩ ∧
      ∀ e ∈ es, connectOrLog e := by
  simp only [Engine.login]
  by_cases hin : hasCache (setCache s.cache "currentCredentials" (.cred cred))
      ("con:" ++ cred.username) = true
  · rw [if_pos hin]
    left
    rfl
  · rw [if_neg hin]
    rcases hp : p.connect eng.defaultLoginUrl cred with ⟨conn, errOpt⟩
    dsimp only
    right
    match errOpt with
    | none =>
      refine ⟨conn, [PEvent.connectReq eng.defaultLoginUrl cred], rfl, ?_⟩
      intro e he
      rw [List.mem_singleton] at he
      exact Or.inl ⟨_, _, he⟩
    | some er =>
      refine ⟨conn, [PEvent.connectReq eng.defaultLoginUrl cred, PEvent.consoleError er],
        ?_, ?_⟩
      · dsimp only
        rw [List.append_assoc]
        rfl
      · intro e he
        rcases List.mem_pair.mp he with h1 | h1
        · exact Or.inl ⟨_, _, h1⟩
        · exact Or.inr ⟨_, h1⟩

theorem countP_snoc_false (p : PEvent → Bool) (t : List PEvent) (e : PEvent)
    (he : p e = false) : List.countP p (t ++ [e]) = List.countP p t := by
  rw [List.countP_append, countP_single, he]
  simp

theorem countP_snoc_true (p : PEvent → Bool) (t : List PEvent) (e : PEvent)
    (he : p e = true) : List.countP p (t ++ [e]) = List.countP p t + 1 := by
  rw [List.countP_append, countP_single, he]
  simp

theorem countP_append_neutral (p : PEvent → Bool) (t es : List PEvent)
    (he : ∀ e ∈ es, p e = false) : List.countP p (t ++ es) = List.countP p t := by
  have hz : List.countP p es = 0 := List.countP_eq_zero.mpr (fun a ha => by simp [he a ha])
  rw [List.countP_append, hz]
  exact Nat.add_zero _

theorem DescInv_extend (s : State) (h : DescInv s) (c2 : Cache) (t2 : List PEvent)
    (hcG : ∀ uid, hasCache c2 (globalKey uid) = hasCache s.cache (globalKey uid))
    (hcF : ∀ o uid, hasCache c2 (fieldsKey o uid) = hasCache s.cache (fieldsKey o uid))
    (hcI : ∀ o uid, hasCache c2 (infoKey o uid) = hasCache s.cache (infoKey o uid))
    (htG : ∀ k, globalCount k t2 = globalCount k s.trace)
    (htF : ∀ k, fieldsCount k t2 = fieldsCount k s.trace)
    (htI : ∀ k, infoCount k t2 = infoCount k s.trace) :
    DescInv ⟨c2, t2⟩ := by
  refine ⟨fun uid => ?_, fun o uid => ?_, fun o uid => ?_⟩
  · exact ⟨fun hh => (htG _).trans ((h.1 uid).1 ((hcG uid).symm.trans hh)),
      fun hh => (htG _).trans ((h.1 uid).2 ((hcG uid).symm.trans hh))⟩
  · exact ⟨fun hh => (htF _).trans ((h.2.1 o uid).1 ((hcF o uid).symm.trans hh)),
      fun hh => (htF _).trans ((h.2.1 o uid).2 ((hcF o uid).symm.trans hh))⟩
  · exact ⟨fun hh => (htI _).trans ((h.2.2 o uid).1 ((hcI o uid).symm.trans hh)),
      fun hh => (htI _).trans ((h.2.2 o uid).2 ((hcI o uid).symm.trans hh))⟩

theorem globalMatch_connectOrLog (k : String) (e : PEvent) (he : connectOrLog e) :
    globalMatch k e = false := by
  rcases he with ⟨url, c, rfl⟩ | ⟨er, rfl⟩
  · rfl
  · rfl

theorem fieldsMatch_connectOrLog (k : String) (e : PEvent) (he : connectOrLog e) :
    fieldsMatch k e = false := by
  rcases he with ⟨url, c, rfl⟩ | ⟨er, rfl⟩
  · rfl
  · rfl

theorem infoMatch_connectOrLog (k : String) (e : PEvent) (he : connectOrLog e) :
    infoMatch k e = false := by
  rcases he with ⟨url, c, rfl⟩ | ⟨er, rfl⟩
  · rfl
  · rfl

theorem DescInv_login (eng : Engine) (p : Provider) (copt : Option Credential) (s : State)
    (h : DescInv s) : DescInv (Engine.login eng p copt s).2 := by
  match copt with
  | none => exact h
  | some cred =>
    rcases login_state_cases eng p cred s with hc | ⟨conn, es, hc, hes⟩
    · rw [hc]
      apply DescInv_extend s h
      · exact fun uid => hasCache_setCache_ne _ _ _ _ (globalKey_ne_cc uid)
      · exact fun o uid => hasCache_setCache_ne _ _ _ _ (fieldsKey_ne_cc o uid)
      · exact fun o uid => hasCache_setCache_ne _ _ _ _ (infoKey_ne_cc o uid)
      · exact fun k => rfl
      · exact fun k => rfl
      · exact fun k => rfl
    · rw [hc]
      apply DescInv_extend s h
      · intro uid
        rw [show ("con:" ++ cred.username) = conKey cred.username from rfl,
          hasCache_setCache_ne _ _ _ _ (globalKey_ne_con uid cred.username)]
        exact hasCache_setCache_ne _ _ _ _ (globalKey_ne_cc uid)
      · intro o uid
        rw [show ("con:" ++ cred.username) = conKey cred.username from rfl,
          hasCache_setCache_ne _ _ _ _ (fieldsKey_ne_con o uid cred.username)]
        exact hasCache_setCache_ne _ _ _ _ (fieldsKey_ne_cc o uid)
      · intro o uid
        rw [show ("con:" ++ cred.username) = conKey cred.username from rfl,
          hasCache_setCache_ne _ _ _ _ (infoKey_ne_con o uid cred.username)]
        exact hasCache_setCache_ne _ _ _ _ (infoKey_ne_cc o uid)
      · exact fun k => countP_append_neutral _ _ _
          (fun e he => globalMatch_connectOrLog k e (hes e he))
      · exact fun k => countP_append_neutral _ _ _
          (fun e he => fieldsMatch_connectOrLog k e (hes e he))
      · exact fun k => countP_append_neutral _ _ _
          (fun e he => infoMatch_connectOrLog k e (hes e he))

theorem DescInv_loginCurrent (eng : Engine) (p : Provider) (s : State) (h : DescInv s) :
    DescInv (Engine.loginCurrent eng p s).2 := by
  rw [loginCurrent_snd]
  exact DescInv_login eng p (getCurrentCred s.cache) s h

end DescInvariant

section DescInvSteps

open CacheProvider

theorem globalCount_snoc_false (k : String) (t : List PEvent) (e : PEvent)
    (he : globalMatch k e = false) : globalCount k (t ++ [e]) = globalCount k t :=
  countP_snoc_false _ _ _ he

theorem globalCount_snoc_true (k : String) (t : List PEvent) (e : PEvent)
    (he : globalMatch k e = true) : globalCount k (t ++ [e]) = globalCount k t + 1 :=
  countP_snoc_true _ _ _ he

theorem fieldsCount_snoc_false (k : String) (t : List PEvent) (e : PEvent)
    (he : fieldsMatch k e = false) : fieldsCount k (t ++ [e]) = fieldsCount k t :=
  countP_snoc_false _ _ _ he

theorem fieldsCount_snoc_true (k : String) (t : List PEvent) (e : PEvent)
    (he : fieldsMatch k e = true) : fieldsCount k (t ++ [e]) = fieldsCount k t + 1 :=
  countP_snoc_true _ _ _ he

theorem infoCount_snoc_false (k : String) (t : List PEvent) (e : PEvent)
    (he : infoMatch k e = false) : infoCount k (t ++ [e]) = infoCount k t :=
  countP_snoc_false _ _ _ he

theorem infoCount_snoc_true (k : String) (t : List PEvent) (e : PEvent)
    (he : infoMatch k e = true) : infoCount k (t ++ [e]) = infoCount k t + 1 :=
  countP_snoc_true _ _ _ he

theorem DescInv_getLoginUrl (eng : Engine) (p : Provider) (s : State) (h : DescInv s) :
    DescInv (Engine.getLoginUrl eng p s).2 := by
  rw [getLoginUrl_snd]
  exact DescInv_loginCurrent eng p s h

theorem DescInv_getAllObject (eng : Engine) (p : Provider) (s : State)
    (hok : AllDescribeOk p) (h : DescInv s) : DescInv (Engine.getAllObject eng p s).2 := by
  have h1 := DescInv_loginCurrent eng p s h
  unfold Engine.getAllObject
  rcases hl : Engine.loginCurrent eng p s with ⟨r, s1⟩
  rw [hl] at h1
  match r with
  | .error e => exact h1
  | .ok conn =>
    dsimp only
    by_cases hm : hasCache s1.cache ("objectList:" ++ conn.userId) = true
    · rw [if_pos hm]
      exact h1
    · rw [if_neg hm]
      obtain ⟨res, hdm⟩ := hok.1 conn
      rw [hdm]
      dsimp only
      refine ⟨fun uid => ?_, fun o2 uid2 => ?_, fun o2 uid2 => ?_⟩
      · by_cases hk : globalKey uid = globalKey conn.userId
        · constructor
          · intro _
            have h0 : globalCount (globalKey uid) s1.trace = 0 := by
              apply (h1.1 uid).2
              rw [hk]
              simpa using hm
            rw [globalCount_snoc_true _ _ _ (by
              show (globalKey conn.userId == globalKey uid) = true
              rw [hk]
              exact beq_self_eq_true _), h0]
          · intro hfalse
            rw [hk] at hfalse
            rw [show ("objectList:" ++ conn.userId) = globalKey conn.userId from rfl,
              hasCache_setCache_self] at hfalse
            cases hfalse
        · have hne : globalKey uid ≠ "objectList:" ++ conn.userId := hk
          have hc2 : hasCache (setCache s1.cache ("objectList:" ++ conn.userId)
              (.sobjects res)) (globalKey uid) = hasCache s1.cache (globalKey uid) :=
            hasCache_setCache_ne _ _ _ _ hne
          have ht2 : globalCount (globalKey uid)
              (s1.trace ++ [PEvent.describeGlobalReq conn.userId]) =
              globalCount (globalKey uid) s1.trace :=
            globalCount_snoc_false _ _ _ (by
              show (globalKey conn.userId == globalKey uid) = false
              rw [beq_eq_false_iff_ne]
              exact fun hh => hk hh.symm)
          exact ⟨fun hh => ht2.trans ((h1.1 uid).1 (hc2 ▸ hh)),
            fun hh => ht2.trans ((h1.1 uid).2 (hc2 ▸ hh))⟩
      · have hc2 : hasCache (setCache s1.cache ("objectList:" ++ conn.userId)
            (.sobjects res)) (fieldsKey o2 uid2) = hasCache s1.cache (fieldsKey o2 uid2) :=
          hasCache_setCache_ne _ _ _ _ (fieldsKey_ne_global o2 uid2 conn.userId)
        have ht2 : fieldsCount (fieldsKey o2 uid2)
            (s1.trace ++ [PEvent.describeGlobalReq conn.userId]) =
            fieldsCount (fieldsKey o2 uid2) s1.trace :=
          fieldsCount_snoc_false _ _ _ rfl
        exact ⟨fun hh => ht2.trans ((h1.2.1 o2 uid2).1 (hc2 ▸ hh)),
          fun hh => ht2.trans ((h1.2.1 o2 uid2).2 (hc2 ▸ hh))⟩
      · have hc2 : hasCache (setCache s1.cache ("objectList:" ++ conn.userId)
            (.sobjects res)) (infoKey o2 uid2) = hasCache s1.cache (infoKey o2 uid2) :=
          hasCache_setCache_ne _ _ _ _ (infoKey_ne_global o2 uid2 conn.userId)
        have ht2 : infoCount (infoKey o2 uid2)
            (s1.trace ++ [PEvent.describeGlobalReq conn.userId]) =
            infoCount (infoKey o2 uid2) s1.trace :=
          infoCount_snoc_false _ _ _ rfl
        exact ⟨fun hh => ht2.trans ((h1.2.2 o2 uid2).1 (hc2 ▸ hh)),
          fun hh => ht2.trans ((h1.2.2 o2 uid2).2 (hc2 ▸ hh))⟩

theorem DescInv_getAllFields (eng : Engine) (p : Provider) (o : String) (s : State)
    (hok : AllDescribeOk p) (h : DescInv s) : DescInv (Engine.getAllFields eng p o s).2 := by
  have h1 := DescInv_loginCurrent eng p s h
  unfold Engine.getAllFields
  rcases hl : Engine.loginCurrent eng p s with ⟨r, s1⟩
  rw [hl] at h1
  match r with
  | .error e => exact h1
  | .ok conn =>
    dsimp only
    by_cases hm : hasCache s1.cache ("objectFields:" ++ (o ++ (":" ++ conn.userId))) = true
    · rw [if_pos hm]
      exact h1
    · rw [if_neg hm]
      obtain ⟨meta, hdm⟩ := hok.2 conn o
      rw [hdm]
      dsimp only
      refine ⟨fun uid => ?_, fun o2 uid2 => ?_, fun o2 uid2 => ?_⟩
      · have hc2 : hasCache (setCache s1.cache ("objectFields:" ++ (o ++ (":" ++ conn.userId)))
            (.fields meta.fields)) (globalKey uid) = hasCache s1.cache (globalKey uid) :=
          hasCache_setCache_ne _ _ _ _
            (fun hh => (fieldsKey_ne_global o conn.userId uid) hh.symm)
        have ht2 : globalCount (globalKey uid)
            (s1.trace ++ [PEvent.describeFieldsReq o conn.userId]) =
            globalCount (globalKey uid) s1.trace :=
          globalCount_snoc_false _ _ _ rfl
        exact ⟨fun hh => ht2.trans ((h1.1 uid).1 (hc2 ▸ hh)),
          fun hh => ht2.trans ((h1.1 uid).2 (hc2 ▸ hh))⟩
      · by_cases hk : fieldsKey o2 uid2 = fieldsKey o conn.userId
        · constructor
          · intro _
            have h0 : fieldsCount (fieldsKey o2 uid2) s1.trace = 0 := by
              apply (h1.2.1 o2 uid2).2
              rw [hk]
              simpa using hm
            rw [fieldsCount_snoc_true _ _ _ (by
              show (fieldsKey o conn.userId == fieldsKey o2 uid2) = true
              rw [hk]
              exact beq_self_eq_true _), h0]
          · intro hfalse
            rw [hk] at hfalse
            rw [show ("objectFields:" ++ (o ++ (":" ++ conn.userId)))
              = fieldsKey o conn.userId from rfl, hasCache_setCache_self] at hfalse
            cases hfalse
        · have hne : fieldsKey o2 uid2 ≠ "objectFields:" ++ (o ++ (":" ++ conn.userId)) := hk
          have hc2 : hasCache (setCache s1.cache ("objectFields:" ++ (o ++ (":" ++ conn.userId)))
              (.fields meta.fields)) (fieldsKey o2 uid2) = hasCache s1.cache (fieldsKey o2 uid2) :=
            hasCache_setCache_ne _ _ _ _ hne
          have ht2 : fieldsCount (fieldsKey o2 uid2)
              (s1.trace ++ [PEvent.describeFieldsReq o conn.userId]) =
              fieldsCount (fieldsKey o2 uid2) s1.trace :=
            fieldsCount_snoc_false _ _ _ (by
              show (fieldsKey o conn.userId == fieldsKey o2 uid2) = false
              rw [beq_eq_false_iff_ne]
              exact fun hh => hk hh.symm)
          exact ⟨fun hh => ht2.trans ((h1.2.1 o2 uid2).1 (hc2 ▸ hh)),
            fun hh => ht2.trans ((h1.2.1 o2 uid2).2 (hc2 ▸ hh))⟩
      · have hc2 : hasCache (setCache s1.cache ("objectFields:" ++ (o ++ (":" ++ conn.userId)))
            (.fields meta.fields)) (infoKey o2 uid2) = hasCache s1.cache (infoKey o2 uid2) :=
          hasCache_setCache_ne _ _ _ _ (infoKey_ne_fields o2 uid2 o conn.userId)
        have ht2 : infoCount (infoKey o2 uid2)
            (s1.trace ++ [PEvent.describeFieldsReq o conn.userId]) =
            infoCount (infoKey o2 uid2) s1.trace :=
          infoCount_snoc_false _ _ _ rfl
        exact ⟨fun hh => ht2.trans ((h1.2.2 o2 uid2).1 (hc2 ▸ hh)),
          fun hh => ht2.trans ((h1.2.2 o2 uid2).2 (hc2 ▸ hh))⟩

theorem DescInv_describeObject (eng : Engine) (p : Provider) (o : String) (s : State)
    (hok : AllDescribeOk p) (h : DescInv s) : DescInv (Engine.describeObject eng p o s).2 := by
  have h1 := DescInv_loginCurrent eng p s h
  unfold Engine.describeObject
  rcases hl : Engine.loginCurrent eng p s with ⟨r, s1⟩
  rw [hl] at h1
  match r with
  | .error e => exact h1
  | .ok conn =>
    dsimp only
    by_cases hm : hasCache s1.cache ("objectInfo:" ++ (o ++ (":" ++ conn.userId))) = true
    · rw [if_pos hm]
      exact h1
    · rw [if_neg hm]
      obtain ⟨meta, hdm⟩ := hok.2 conn o
      rw [hdm]
      dsimp only
      refine ⟨fun uid => ?_, fun o2 uid2 => ?_, fun o2 uid2 => ?_⟩
      · have hc2 : hasCache (setCache s1.cache ("objectInfo:" ++ (o ++ (":" ++ conn.userId)))
            (.meta meta)) (globalKey uid) = hasCache s1.cache (globalKey uid) :=
          hasCache_setCache_ne _ _ _ _
            (fun hh => (infoKey_ne_global o conn.userId uid) hh.symm)
        have ht2 : globalCount (globalKey uid)
            (s1.trace ++ [PEvent.describeInfoReq o conn.userId]) =
            globalCount (globalKey uid) s1.trace :=
          globalCount_snoc_false _ _ _ rfl
        exact ⟨fun hh => ht2.trans ((h1.1 uid).1 (hc2 ▸ hh)),
          fun hh => ht2.trans ((h1.1 uid).2 (hc2 ▸ hh))⟩
      · have hc2 : hasCache (setCache s1.cache ("objectInfo:" ++ (o ++ (":" ++ conn.userId)))
            (.meta meta)) (fieldsKey o2 uid2) = hasCache s1.cache (fieldsKey o2 uid2) :=
          hasCache_setCache_ne _ _ _ _
            (fun hh => (infoKey_ne_fields o conn.userId o2 uid2) hh.symm)
        have ht2 : fieldsCount (fieldsKey o2 uid2)
            (s1.trace ++ [PEvent.describeInfoReq o conn.userId]) =
            fieldsCount (fieldsKey o2 uid2) s1.trace :=
          fieldsCount_snoc_false _ _ _ rfl
        exact ⟨fun hh => ht2.trans ((h1.2.1 o2 uid2).1 (hc2 ▸ hh)),
          fun hh => ht2.trans ((h1.2.1 o2 uid2).2 (hc2 ▸ hh))⟩
      · by_cases hk : infoKey o2 uid2 = infoKey o conn.userId
        · constructor
          · intro _
            have h0 : infoCount (infoKey o2 uid2) s1.trace = 0 := by
              apply (h1.2.2 o2 uid2).2
              rw [hk]
              simpa using hm
            rw [infoCount_snoc_true _ _ _ (by
              show (infoKey o conn.userId == infoKey o2 uid2) = true
              rw [hk]
              exact beq_self_eq_true _), h0]
          · intro hfalse
            rw [hk] at hfalse
            rw [show ("objectInfo:" ++ (o ++ (":" ++ conn.userId)))
              = infoKey o conn.userId from rfl, hasCache_setCache_self] at hfalse
            cases hfalse
        · have hne : infoKey o2 uid2 ≠ "objectInfo:" ++ (o ++ (":" ++ conn.userId)) := hk
          have hc2 : hasCache (setCache s1.cache ("objectInfo:" ++ (o ++ (":" ++ conn.userId)))
              (.meta meta)) (infoKey o2 uid2) = hasCache s1.cache (infoKey o2 uid2) :=
            hasCache_setCache_ne _ _ _ _ hne
          have ht2 : infoCount (infoKey o2 uid2)
              (s1.trace ++ [PEvent.describeInfoReq o conn.userId]) =
              infoCount (infoKey o2 uid2) s1.trace :=
            infoCount_snoc_false _ _ _ (by
              show (infoKey o conn.userId == infoKey o2 uid2) = false
              rw [beq_eq_false_iff_ne]
              exact fun hh => hk hh.symm)
          exact ⟨fun hh => ht2.trans ((h1.2.2 o2 uid2).1 (hc2 ▸ hh)),
            fun hh => ht2.trans ((h1.2.2 o2 uid2).2 (hc2 ▸ hh))⟩

theorem DescInv_addNeutral (s : State) (h : DescInv s) (es : List PEvent)
    (hG : ∀ k, ∀ e ∈ es, globalMatch k e = false)
    (hF : ∀ k, ∀ e ∈ es, fieldsMatch k e = false)
    (hI : ∀ k, ∀ e ∈ es, infoMatch k e = false) :
    DescInv ⟨s.cache, s.trace ++ es⟩ :=
  DescInv_extend s h _ _ (fun _ => rfl) (fun _ _ => rfl) (fun _ _ => rfl)
    (fun k => countP_append_neutral _ _ _ (hG k))
    (fun k => countP_append_neutral _ _ _ (hF k))
    (fun k => countP_append_neutral _ _ _ (hI k))

theorem DescInv_query (eng : Engine) (p : Provider) (q : String) (s : State)
    (h : DescInv s) : DescInv (Engine.query eng p q s).2 := by
  have h1 := DescInv_loginCurrent eng p s h
  unfold Engine.query
  rcases hl : Engine.loginCurrent eng p s with ⟨r, s1⟩
  rw [hl] at h1
  match r with
  | .error e => exact h1
  | .ok conn =>
    dsimp only
    rcases hg : p.query conn q with e | res
    · dsimp only
      rw [List.append_assoc]
      refine DescInv_addNeutral s1 h1 _ ?_ ?_ ?_
      all_goals
        intro k e2 he2
        rcases List.mem_pair.mp he2 with h2 | h2 <;> rw [h2] <;> rfl
    · exact DescInv_addNeutral s1 h1 [PEvent.queryReq q]
        (fun k e2 he2 => by rw [List.mem_singleton.mp he2]; rfl)
        (fun k e2 he2 => by rw [List.mem_singleton.mp he2]; rfl)
        (fun k e2 he2 => by rw [List.mem_singleton.mp he2]; rfl)

theorem DescInv_insert (eng : Engine) (p : Provider) (r0 : Records) (o : String) (s : State)
    (h : DescInv s) : DescInv (Engine.insert eng p r0 o s).2 := by
  have h1 := DescInv_loginCurrent eng p s h
  unfold Engine.insert
  rcases hl : Engine.loginCurrent eng p s with ⟨r, s1⟩
  rw [hl] at h1
  match r with
  | .error e => exact h1
  | .ok conn =>
    exact DescInv_addNeutral s1 h1 [PEvent.createReq o r0]
      (fun k e2 he2 => by rw [List.mem_singleton.mp he2]; rfl)
      (fun k e2 he2 => by rw [List.mem_singleton.mp he2]; rfl)
      (fun k e2 he2 => by rw [List.mem_singleton.mp he2]; rfl)

theorem DescInv_update (eng : Engine) (p : Provider) (r0 : Records) (o : String) (s : State)
    (h : DescInv s) : DescInv (Engine.update eng p r0 o s).2 := by
  have h1 := DescInv_loginCurrent eng p s h
  unfold Engine.update
  rcases hl : Engine.loginCurrent eng p s with ⟨r, s1⟩
  rw [hl] at h1
  match r with
  | .error e => exact h1
  | .ok conn =>
    exact DescInv_addNeutral s1 h1 [PEvent.updateReq o r0]
      (fun k e2 he2 => by rw [List.mem_singleton.mp he2]; rfl)
      (fun k e2 he2 => by rw [List.mem_singleton.mp he2]; rfl)
      (fun k e2 he2 => by rw [List.mem_singleton.mp he2]; rfl)

theorem DescInv_upsert (eng : Engine) (p : Provider) (r0 : Records) (o x : String) (s : State)
    (h : DescInv s) : DescInv (Engine.upsert eng p r0 o x s).2 := by
  have h1 := DescInv_loginCurrent eng p s h
  unfold Engine.upsert
  rcases hl : Engine.loginCurrent eng p s with ⟨r, s1⟩
  rw [hl] at h1
  match r with
  | .error e => exact h1
  | .ok conn =>
    exact DescInv_addNeutral s1 h1 [PEvent.upsertReq o x r0]
      (fun k e2 he2 => by rw [List.mem_singleton.mp he2]; rfl)
      (fun k e2 he2 => by rw [List.mem_singleton.mp he2]; rfl)
      (fun k e2 he2 => by rw [List.mem_singleton.mp he2]; rfl)

theorem DescInv_delete (eng : Engine) (p : Provider) (r0 : Records) (o : String) (s : State)
    (h : DescInv s) : DescInv (Engine.delete eng p r0 o s).2 := by
  have h1 := DescInv_loginCurrent eng p s h
  unfold Engine.delete
  rcases hl : Engine.loginCurrent eng p s with ⟨r, s1⟩
  rw [hl] at h1
  match r with
  | .error e => exact h1
  | .ok conn =>
    exact DescInv_addNeutral s1 h1 [PEvent.destroyReq o r0]
      (fun k e2 he2 => by rw [List.mem_singleton.mp he2]; rfl)
      (fun k e2 he2 => by rw [List.mem_singleton.mp he2]; rfl)
      (fun k e2 he2 => by rw [List.mem_singleton.mp he2]; rfl)

theorem DescInv_step (eng : Engine) (p : Provider) (hok : AllDescribeOk p) (op : Op)
    (s : State) (h : DescInv s) : DescInv (step eng p op s) := by
  match op with
  | .login c => exact DescInv_login eng p (some c) s h
  | .getLoginUrl => exact DescInv_getLoginUrl eng p s h
  | .getAllObject => exact DescInv_getAllObject eng p s hok h
  | .getAllFields o => exact DescInv_getAllFields eng p o s hok h
  | .describeObject o => exact DescInv_describeObject eng p o s hok h
  | .query q => exact DescInv_query eng p q s h
  | .insert r o => exact DescInv_insert eng p r o s h
  | .update r o => exact DescInv_update eng p r o s h
  | .upsert r o x => exact DescInv_upsert eng p r o x s h
  | .delete r o => exact DescInv_delete eng p r o s h

theorem DescInv_runOps (eng : Engine) (p : Provider) (hok : AllDescribeOk p) (ops : List Op)
    (s : State) (h : DescInv s) : DescInv (runOps eng p ops s) := by
  induction ops generalizing s with
  | nil => exact h
  | cons op ops ih => exact ih _ (DescInv_step eng p hok op s h)

theorem DescInv_init : DescInv initState := by
  refine ⟨fun uid => ⟨fun hh => ?_, fun _ => rfl⟩,
    fun o uid => ⟨fun hh => ?_, fun _ => rfl⟩,
    fun o uid => ⟨fun hh => ?_, fun _ => rfl⟩⟩
  · cases hh
  · cases hh
  · cases hh

end DescInvSteps


section LoginResults

open CacheProvider

theorem login_cached (eng : Engine) (p : Provider) (cred : Credential) (s : State)
    (hin : hasCache s.cache ("con:" ++ cred.username) = true) :
    Engine.login eng p (some cred) s =
      (.ok (getCache s.cache ("con:" ++ cred.username)),
       ⟨setCache s.cache "currentCredentials" (.cred cred), s.trace⟩) := by
  have h1 : hasCache (setCache s.cache "currentCredentials" (.cred cred))
      ("con:" ++ cred.username) = true := by
    rw [hasCache_setCache_ne s.cache "currentCredentials" ("con:" ++ cred.username)
      (Value.cred cred) (conKey_ne_cc cred.username)]
    exact hin
  simp only [Engine.login]
  rw [if_pos h1, getCache_setCache_ne s.cache "currentCredentials" ("con:" ++ cred.username)
    (Value.cred cred) (conKey_ne_cc cred.username)]

theorem login_fresh_ok (eng : Engine) (p : Provider) (cred : Credential) (s : State)
    (conn : Conn)
    (hin : hasCache s.cache ("con:" ++ cred.username) = false)
    (hc : p.connect eng.defaultLoginUrl cred = (conn, none)) :
    Engine.login eng p (some cred) s =
      (.ok (some (.conn conn)),
       ⟨setCache (setCache s.cache "currentCredentials" (.cred cred))
          ("con:" ++ cred.username) (.conn conn),
        s.trace ++ [PEvent.connectReq eng.defaultLoginUrl cred]⟩) := by
  have h1 : hasCache (setCache s.cache "currentCredentials" (.cred cred))
      ("con:" ++ cred.username) = false := by
    rw [hasCache_setCache_ne s.cache "currentCredentials" ("con:" ++ cred.username)
      (Value.cred cred) (conKey_ne_cc cred.username)]
    exact hin
  simp only [Engine.login]
  rw [if_neg (by simp [h1]), hc]
  dsimp only
  rw [getCache_setCache_self]

theorem login_fresh_err (eng : Engine) (p : Provider) (cred : Credential) (s : State)
    (conn : Conn) (e : PErr)
    (hin : hasCache s.cache ("con:" ++ cred.username) = false)
    (hc : p.connect eng.defaultLoginUrl cred = (conn, some e)) :
    Engine.login eng p (some cred) s =
      (.ok (some (.conn conn)),
       ⟨setCache (setCache s.cache "currentCredentials" (.cred cred))
          ("con:" ++ cred.username) (.conn conn),
        s.trace ++ [PEvent.connectReq eng.defaultLoginUrl cred, PEvent.consoleError e]⟩) := by
  have h1 : hasCache (setCache s.cache "currentCredentials" (.cred cred))
      ("con:" ++ cred.username) = false := by
    rw [hasCache_setCache_ne s.cache "currentCredentials" ("con:" ++ cred.username)
      (Value.cred cred) (conKey_ne_cc cred.username)]
    exact hin
  simp only [Engine.login]
  rw [if_neg (by simp [h1]), hc]
  dsimp only
  rw [getCache_setCache_self, List.append_assoc]
  rfl

theorem login_post (eng : Engine) (p : Provider) (cred : Credential) (s : State) :
    (Engine.login eng p (some cred) s).1 =
      .ok (getCache (Engine.login eng p (some cred) s).2.cache ("con:" ++ cred.username)) ∧
    hasCache (Engine.login eng p (some cred) s).2.cache ("con:" ++ cred.username) = true ∧
    getCache (Engine.login eng p (some cred) s).2.cache "currentCredentials" =
      some (.cred cred) := by
  simp only [Engine.login]
  by_cases hin : hasCache (setCache s.cache "currentCredentials" (.cred cred))
      ("con:" ++ cred.username) = true
  · rw [if_pos hin]
    exact ⟨rfl, hin, getCache_setCache_self _ _ _⟩
  · rw [if_neg hin]
    rcases p.connect eng.defaultLoginUrl cred with ⟨conn, errOpt⟩
    dsimp only
    match errOpt with
    | none =>
      refine ⟨rfl, hasCache_setCache_self _ _ _, ?_⟩
      dsimp only
      rw [getCache_setCache_ne _ ("con:" ++ cred.username) "currentCredentials"
        (Value.conn conn) (Ne.symm (conKey_ne_cc cred.username))]
      exact getCache_setCache_self _ _ _
    | some e =>
      refine ⟨rfl, hasCache_setCache_self _ _ _, ?_⟩
      dsimp only
      rw [getCache_setCache_ne _ ("con:" ++ cred.username) "currentCredentials"
        (Value.conn conn) (Ne.symm (conKey_ne_cc cred.username))]
      exact getCache_setCache_self _ _ _

theorem getCurrentCred_of_getCache (c : Cache) (cred : Credential)
    (h : getCache c "currentCredentials" = some (.cred cred)) :
    getCurrentCred c = some cred := by
  unfold getCurrentCred
  rw [h]

theorem loginCurrent_ok_elim (eng : Engine) (p : Provider) (s : State) (conn : Conn)
    (s1 : State) (hl : Engine.loginCurrent eng p s = (.ok conn, s1)) :
    ∃ cred : Credential, getCurrentCred s.cache = some cred ∧
      Engine.login eng p (some cred) s = (.ok (some (.conn conn)), s1) := by
  unfold Engine.loginCurrent at hl
  rcases hcc : getCurrentCred s.cache with _ | cred
  · rw [hcc, login_none] at hl
    simp at hl
  · rw [hcc] at hl
    rcases hres : Engine.login eng p (some cred) s with ⟨r, s2⟩
    rw [hres] at hl
    refine ⟨cred, rfl, ?_⟩
    match r, hl with
    | .error e, hl => simp at hl
    | .ok none, hl => simp at hl
    | .ok (some (.cred c)), hl => simp at hl
    | .ok (some (.sobjects l)), hl => simp at hl
    | .ok (some (.fields l)), hl => simp at hl
    | .ok (some (.meta m)), hl => simp at hl
    | .ok (some (.queryResult l)), hl => simp at hl
    | .ok (some (.saveResult sr)), hl => simp at hl
    | .ok (some .jsUndefined), hl => simp at hl
    | .ok (some (.conn c)), hl =>
      simp only [Prod.mk.injEq, Except.ok.injEq] at hl
      rw [hres, hl.1, hl.2]

theorem loginCurrent_again (eng : Engine) (p : Provider) (s : State) (conn : Conn)
    (s1 : State) (hl : Engine.loginCurrent eng p s = (.ok conn, s1)) (tr : List PEvent) :
    ∃ cred : Credential,
      Engine.loginCurrent eng p ⟨s1.cache, tr⟩ =
        (.ok conn, ⟨setCache s1.cache "currentCredentials" (.cred cred), tr⟩) := by
  obtain ⟨cred, hcc, hlog⟩ := loginCurrent_ok_elim eng p s conn s1 hl
  have hpost := login_post eng p cred s
  rw [hlog] at hpost
  dsimp only at hpost
  obtain ⟨hret, hhas, hcur⟩ := hpost
  simp only [Except.ok.injEq] at hret
  refine ⟨cred, ?_⟩
  unfold Engine.loginCurrent
  rw [show (getCurrentCred (⟨s1.cache, tr⟩ : State).cache) = some cred from
    getCurrentCred_of_getCache _ _ hcur]
  rw [login_cached eng p cred ⟨s1.cache, tr⟩ hhas]
  dsimp only
  rw [← hret]

end LoginResults

section MethodShapes

open CacheProvider

theorem getAllObject_cached (eng : Engine) (p : Provider) (s : State) (conn : Conn)
    (s1 : State) (hl : Engine.loginCurrent eng p s = (.ok conn, s1))
    (hm : hasCache s1.cache ("objectList:" ++ conn.userId) = true) :
    Engine.getAllObject eng p s =
      (.ok (getCache s1.cache ("objectList:" ++ conn.userId)), s1) := by
  unfold Engine.getAllObject
  rw [hl]
  dsimp only
  rw [if_pos hm]

theorem getAllFields_cached (eng : Engine) (p : Provider) (o : String) (s : State)
    (conn : Conn) (s1 : State) (hl : Engine.loginCurrent eng p s = (.ok conn, s1))
    (hm : hasCache s1.cache ("objectFields:" ++ (o ++ (":" ++ conn.userId))) = true) :
    Engine.getAllFields eng p o s =
      (.ok (getCache s1.cache ("objectFields:" ++ (o ++ (":" ++ conn.userId)))), s1) := by
  unfold Engine.getAllFields
  rw [hl]
  dsimp only
  rw [if_pos hm]

theorem describeObject_cached (eng : Engine) (p : Provider) (o : String) (s : State)
    (conn : Conn) (s1 : State) (hl : Engine.loginCurrent eng p s = (.ok conn, s1))
    (hm : hasCache s1.cache ("objectInfo:" ++ (o ++ (":" ++ conn.userId))) = true) :
    Engine.describeObject eng p o s =
      (.ok (getCache s1.cache ("objectInfo:" ++ (o ++ (":" ++ conn.userId)))), s1) := by
  unfold Engine.describeObject
  rw [hl]
  dsimp only
  rw [if_pos hm]

theorem queryCalls_append (t1 t2 : List PEvent) :
    queryCalls (t1 ++ t2) = queryCalls t1 ++ queryCalls t2 :=
  List.filterMap_append t1 t2 _

/-- One `query` invocation: the cache is exactly the post-login cache (no
entry is read or written for the result) and exactly one provider query
request with the given SOQL string is appended to the trace. -/
theorem query_shape (eng : Engine) (p : Provider) (q : String) (s : State) (conn : Conn)
    (s1 : State) (hl : Engine.loginCurrent eng p s = (.ok conn, s1)) :
    (Engine.query eng p q s).2.cache = s1.cache ∧
    queryCalls (Engine.query eng p q s).2.trace = queryCalls s1.trace ++ [q] ∧
    ((∃ e, p.query conn q = .error e ∧ (Engine.query eng p q s).1 = .error .jsUndefined) ∨
     (∃ res, p.query conn q = .ok res ∧
        (Engine.query eng p q s).1 = .ok (some (.queryResult res)))) := by
  unfold Engine.query
  rw [hl]
  dsimp only
  rcases hg : p.query conn q with e | res
  · dsimp only
    refine ⟨rfl, ?_, Or.inl ⟨e, rfl, rfl⟩⟩
    rw [List.append_assoc, queryCalls_append]
    rfl
  · refine ⟨rfl, ?_, Or.inr ⟨res, rfl, rfl⟩⟩
    rw [queryCalls_append]
    rfl

theorem insert_shape (eng : Engine) (p : Provider) (r0 : Records) (o : String) (s : State)
    (conn : Conn) (s1 : State) (hl : Engine.loginCurrent eng p s = (.ok conn, s1)) :
    Engine.insert eng p r0 o s =
      (Engine.mutationResult (p.create conn o r0),
       ⟨s1.cache, s1.trace ++ [PEvent.createReq o r0]⟩) := by
  unfold Engine.insert
  rw [hl]

theorem update_shape (eng : Engine) (p : Provider) (r0 : Records) (o : String) (s : State)
    (conn : Conn) (s1 : State) (hl : Engine.loginCurrent eng p s = (.ok conn, s1)) :
    Engine.update eng p r0 o s =
      (Engine.mutationResult (p.update conn o r0),
       ⟨s1.cache, s1.trace ++ [PEvent.updateReq o r0]⟩) := by
  unfold Engine.update
  rw [hl]

theorem upsert_shape (eng : Engine) (p : Provider) (r0 : Records) (o x : String) (s : State)
    (conn : Conn) (s1 : State) (hl : Engine.loginCurrent eng p s = (.ok conn, s1)) :
    Engine.upsert eng p r0 o x s =
      (Engine.mutationResult (p.upsert conn o x r0),
       ⟨s1.cache, s1.trace ++ [PEvent.upsertReq o x r0]⟩) := by
  unfold Engine.upsert
  rw [hl]

theorem delete_shape (eng : Engine) (p : Provider) (r0 : Records) (o : String) (s : State)
    (conn : Conn) (s1 : State) (hl : Engine.loginCurrent eng p s = (.ok conn, s1)) :
    Engine.delete eng p r0 o s =
      (Engine.mutationResult (p.destroy conn o r0),
       ⟨s1.cache, s1.trace ++ [PEvent.destroyReq o r0]⟩) := by
  unfold Engine.delete
  rw [hl]

end MethodShapes

section DeleteLemmas

open CacheProvider

theorem hasCache_filter_self (c : Cache) (k : String) :
    (c.filter (fun p => p.1 != k)).any (fun p => p.1 == k) = false := by
  rw [Bool.eq_false_iff]
  intro hh
  rw [List.any_eq_true] at hh
  obtain ⟨a, ha, hk⟩ := hh
  rw [List.mem_filter] at ha
  rw [beq_iff_eq] at hk
  exact absurd hk (by simpa using ha.2)

theorem hasCache_deleteCache_self (c : Cache) (k : String) :
    hasCache (deleteCache c k) k = false := by
  unfold deleteCache
  by_cases hh : hasCache c k = true
  · rw [if_pos hh]
    exact hasCache_filter_self c k
  · rw [if_neg hh]
    simpa using hh

theorem getCache_deleteCache_self (c : Cache) (k : String) :
    getCache (deleteCache c k) k = none :=
  hasCache_false_getCache _ _ (hasCache_deleteCache_self c k)

theorem deleteCache_absent (c : Cache) (k : String) (h : hasCache c k = false) :
    deleteCache c k = c := by
  unfold deleteCache
  rw [h]
  rfl

end DeleteLemmas

/-- One operation against the bare cache store (the surface a `CacheProvider`
client can use to mutate it). -/
inductive CacheOp where
  | set (k : String) (v : Value)
  | del (k : String)
deriving DecidableEq, Repr

/-- Applies one cache operation. -/
def applyCacheOp (c : Cache) : CacheOp → Cache
  | .set k v => CacheProvider.setCache c k v
  | .del k => CacheProvider.deleteCache c k

/-- Applies a sequence of cache operations in order. -/
def applyCacheOps (c : Cache) : List CacheOp → Cache
  | [] => c
  | op :: ops => applyCacheOps (applyCacheOp c op) ops

section CacheOpLemmas

open CacheProvider

theorem hasCache_stays_false (c : Cache) (k : String) (op : CacheOp)
    (hop : ∀ v, op ≠ CacheOp.set k v) (h : hasCache c k = false) :
    hasCache (applyCacheOp c op) k = false := by
  match op with
  | .set k2 v =>
    have hne : k ≠ k2 := fun hh => hop v (by rw [hh])
    rw [applyCacheOp, hasCache_setCache_ne c k2 k v hne]
    exact h
  | .del k2 =>
    by_cases hk : k = k2
    · rw [hk, applyCacheOp]
      exact hasCache_deleteCache_self c k2
    · rw [applyCacheOp]
      unfold deleteCache
      by_cases hh : hasCache c k2 = true
      · rw [if_pos hh]
        rw [show (hasCache (c.filter (fun p => p.1 != k2)) k) = hasCache c k from
          any_filter_ne c k2 k hk]
        exact h
      · rw [if_neg hh]
        exact h

theorem hasCache_never_set (k : String) (ops : List CacheOp)
    (hops : ∀ v, CacheOp.set k v ∉ ops) (c : Cache) (h : hasCache c k = false) :
    hasCache (applyCacheOps c ops) k = false := by
  induction ops generalizing c with
  | nil => exact h
  | cons op ops ih =>
    rw [applyCacheOps]
    refine ih (fun v hv => hops v (List.mem_cons_of_mem op hv)) _ ?_
    exact hasCache_stays_false c k op
      (fun v hv => hops v (hv ▸ List.mem_cons_self op ops)) h

end CacheOpLemmas

/-- Demo connection handle the demo providers hand out. -/
def demoConn : Conn :=
  { instanceUrl := "https://na1.salesforce.com"
    accessToken := "SESSION_TOKEN"
    userId := "005xx000001X8Uz"
    tag := 7 }

/-- Demo provider whose every operation succeeds. -/
def okProvider : Provider where
  connect := fun _ _ => (demoConn, none)
  describeGlobal := fun _ => .ok ["Account", "Contact"]
  describe := fun _ o => .ok ⟨o, ["Id", "Name"]⟩
  query := fun _ _ => .ok ["row1", "row2"]
  create := fun _ _ _ => .ok ⟨true, "001A"⟩
  update := fun _ _ _ => .ok ⟨true, "001A"⟩
  upsert := fun _ _ _ _ => .ok ⟨true, "001A"⟩
  destroy := fun _ _ _ => .ok ⟨true, "001A"⟩

/-- Demo provider that reports failures: connect and describe report errors,
query reports an error, create/update/upsert answer with `success=false`
envelopes and destroy raises a transport error. -/
def errProvider : Provider where
  connect := fun _ _ => (demoConn, some "INVALID_LOGIN")
  describeGlobal := fun _ => .error "DESCRIBE_FAIL"
  describe := fun _ _ => .error "DESCRIBE_FAIL"
  query := fun _ _ => .error "MALFORMED_QUERY"
  create := fun _ _ _ => .ok ⟨false, "001A"⟩
  update := fun _ _ _ => .ok ⟨false, "001A"⟩
  upsert := fun _ _ _ _ => .ok ⟨false, "001A"⟩
  destroy := fun _ _ _ => .error "DML_FAIL"

/-- Engine as constructed with the "production" selector. -/
def demoEngine : Engine := { defaultLoginUrl := some "https://login.salesforce.com/" }

/-- Demo credential. -/
def demoCred : Credential := ⟨"alice@example.com", "pw1"⟩

/-- Same username as `demoCred`, different password. -/
def demoCred2 : Credential := ⟨"alice@example.com", "WRONG"⟩

/-- State after a successful demo login. -/
def demoLoggedIn : State := (Engine.login demoEngine okProvider (some demoCred) initState).2

/-- State after a demo login against the failing provider. -/
def demoLoggedInErr : State := (Engine.login demoEngine errProvider (some demoCred) initState).2

/-- C1: over every call sequence from process start, at most one provider
connect request is issued per distinct username; and a second `login` with
the same username (any password) issues no further provider request and
returns the identical session handle the first call stored. -/
theorem login_memoizes_per_username (eng : Engine) (p : Provider) (c1 c2 : Credential)
    (s : State) (ops : List Op) (huser : c1.username = c2.username) :
    (∀ u, connectCount u (runOps eng p ops initState).trace ≤ 1) ∧
    (Engine.login eng p (some c2) (Engine.login eng p (some c1) s).2).1 =
      (Engine.login eng p (some c1) s).1 ∧
    (Engine.login eng p (some c2) (Engine.login eng p (some c1) s).2).2.trace =
      (Engine.login eng p (some c1) s).2.trace := by
  have hpost := login_post eng p c1 s
  have hhas2 : CacheProvider.hasCache (Engine.login eng p (some c1) s).2.cache
      ("con:" ++ c2.username) = true := by
    rw [← huser]
    exact hpost.2.1
  have hc := login_cached eng p c2 (Engine.login eng p (some c1) s).2 hhas2
  refine ⟨?_, ?_, ?_⟩
  · intro u
    have hinv := ConnInv_runOps eng p ops initState ConnInv_init u
    by_cases hb : CacheProvider.hasCache (runOps eng p ops initState).cache (conKey u) = true
    · exact le_of_eq (hinv.1 hb)
    · rw [hinv.2 (by simpa using hb)]
      exact Nat.zero_le 1
  · rw [hc]
    dsimp only
    rw [← huser, hpost.1]
  · rw [hc]

/-- C1 witness at a concrete engine, provider, credential pair and call
sequence. -/
theorem login_memoizes_per_username_witness :
    connectCount "alice@example.com"
      (runOps demoEngine okProvider [Op.login demoCred, Op.login demoCred2]
        initState).trace ≤ 1 ∧
    (Engine.login demoEngine okProvider (some demoCred2)
        (Engine.login demoEngine okProvider (some demoCred) initState).2).1 =
      (Engine.login demoEngine okProvider (some demoCred) initState).1 ∧
    (Engine.login demoEngine okProvider (some demoCred2)
        (Engine.login demoEngine okProvider (some demoCred) initState).2).2.trace =
      (Engine.login demoEngine okProvider (some demoCred) initState).2.trace := by
  have h := login_memoizes_per_username demoEngine okProvider demoCred demoCred2 initState
    [Op.login demoCred, Op.login demoCred2] rfl
  exact ⟨h.1 "alice@example.com", h.2.1, h.2.2⟩

/-- C2: construction succeeds exactly for case-insensitive
"production"/"sandbox", fixing the production resp. sandbox endpoint, and
fails for every other string with the invalid-org-type error before any
network-reachable state exists (the constructor takes no provider and no
state). -/
theorem construct_validates_environment (e : String) :
    ((Engine.construct e).isOk = true ↔
      toLowerCase e = "production" ∨ toLowerCase e = "sandbox") ∧
    (toLowerCase e = "production" →
      Engine.construct e = .ok ⟨some "https://login.salesforce.com/"⟩) ∧
    (toLowerCase e = "sandbox" →
      Engine.construct e = .ok ⟨some "https://test.salesforce.com/"⟩) ∧
    (toLowerCase e ≠ "production" → toLowerCase e ≠ "sandbox" →
      Engine.construct e =
        .error "Invalid org type !, your org type should be production or sandbox.") := by
  by_cases h1 : toLowerCase e = "production"
  · have hc : Engine.construct e = .ok ⟨some "https://login.salesforce.com/"⟩ := by
      unfold Engine.construct
      rw [h1]
      rfl
    refine ⟨?_, fun _ => hc, fun h2 => absurd (h1.symm.trans h2) (by decide),
      fun hcon _ => absurd h1 hcon⟩
    rw [hc]
    exact iff_of_true rfl (Or.inl h1)
  · by_cases h2 : toLowerCase e = "sandbox"
    · have hc : Engine.construct e = .ok ⟨some "https://test.salesforce.com/"⟩ := by
        unfold Engine.construct
        rw [h2]
        rfl
      refine ⟨?_, fun h3 => absurd (h3.symm.trans h2) (by decide), fun _ => hc,
        fun _ hcon => absurd h2 hcon⟩
      rw [hc]
      exact iff_of_true rfl (Or.inr h2)
    · have hcond : (toLowerCase e != "production" && toLowerCase e != "sandbox") = true := by
        rw [Bool.and_eq_true, bne_iff_ne, bne_iff_ne]
        exact ⟨h1, h2⟩
      have hc : Engine.construct e =
          .error "Invalid org type !, your org type should be production or sandbox." := by
        unfold Engine.construct
        rw [hcond]
        rfl
      refine ⟨?_, fun h3 => absurd h3 h1, fun h3 => absurd h3 h2, fun _ _ => hc⟩
      rw [hc]
      exact iff_of_false (by decide) (fun h3 => h3.elim h1 h2)

/-- C2 witness: mixed-case "Production" succeeds on the production URL,
"sandbox" on the sandbox URL, "staging" fails. -/
theorem construct_validates_environment_witness :
    Engine.construct "Production" = .ok ⟨some "https://login.salesforce.com/"⟩ ∧
    Engine.construct "sandbox" = .ok ⟨some "https://test.salesforce.com/"⟩ ∧
    Engine.construct "staging" =
      .error "Invalid org type !, your org type should be production or sandbox." :=
  ⟨(construct_validates_environment "Production").2.1 (by decide),
   (construct_validates_environment "sandbox").2.2.1 (by decide),
   (construct_validates_environment "staging").2.2.2 (by decide) (by decide)⟩

/-- C3: with a provider that answers describe requests, over every call
sequence from process start each describe memo key has exactly one provider
request of its method when cached and zero when not (so never more than
one per distinct key, independently for `getAllObject`, `getAllFields` and
`describeObject`); and a call that finds its key cached returns the cached
value with the trace unchanged. -/
theorem describe_memoized_per_key (eng : Engine) (p : Provider) (hok : AllDescribeOk p)
    (ops : List Op) :
    (∀ uid,
      (CacheProvider.hasCache (runOps eng p ops initState).cache (globalKey uid) = true →
        globalCount (globalKey uid) (runOps eng p ops initState).trace = 1) ∧
      (CacheProvider.hasCache (runOps eng p ops initState).cache (globalKey uid) = false →
        globalCount (globalKey uid) (runOps eng p ops initState).trace = 0)) ∧
    (∀ o uid,
      (CacheProvider.hasCache (runOps eng p ops initState).cache (fieldsKey o uid) = true →
        fieldsCount (fieldsKey o uid) (runOps eng p ops initState).trace = 1) ∧
      (CacheProvider.hasCache (runOps eng p ops initState).cache (fieldsKey o uid) = false →
        fieldsCount (fieldsKey o uid) (runOps eng p ops initState).trace = 0)) ∧
    (∀ o uid,
      (CacheProvider.hasCache (runOps eng p ops initState).cache (infoKey o uid) = true →
        infoCount (infoKey o uid) (runOps eng p ops initState).trace = 1) ∧
      (CacheProvider.hasCache (runOps eng p ops initState).cache (infoKey o uid) = false →
        infoCount (infoKey o uid) (runOps eng p ops initState).trace = 0)) ∧
    (∀ (s s1 : State) (conn : Conn), Engine.loginCurrent eng p s = (.ok conn, s1) →
      (CacheProvider.hasCache s1.cache ("objectList:" ++ conn.userId) = true →
        Engine.getAllObject eng p s =
          (.ok (CacheProvider.getCache s1.cache ("objectList:" ++ conn.userId)), s1)) ∧
      (∀ o, CacheProvider.hasCache s1.cache
          ("objectFields:" ++ (o ++ (":" ++ conn.userId))) = true →
        Engine.getAllFields eng p o s =
          (.ok (CacheProvider.getCache s1.cache
            ("objectFields:" ++ (o ++ (":" ++ conn.userId)))), s1)) ∧
      (∀ o, CacheProvider.hasCache s1.cache
          ("objectInfo:" ++ (o ++ (":" ++ conn.userId))) = true →
        Engine.describeObject eng p o s =
          (.ok (CacheProvider.getCache s1.cache
            ("objectInfo:" ++ (o ++ (":" ++ conn.userId)))), s1))) := by
  have hinv := DescInv_runOps eng p hok ops initState DescInv_init
  exact ⟨hinv.1, hinv.2.1, hinv.2.2,
    fun s s1 conn hl =>
      ⟨fun hm => getAllObject_cached eng p s conn s1 hl hm,
       fun o hm => getAllFields_cached eng p o s conn s1 hl hm,
       fun o hm => describeObject_cached eng p o s conn s1 hl hm⟩⟩

/-- C3 witness: a concrete sequence repeating each describe call twice
still has exactly one request per key, and a repeated cached call returns
the cached value. -/
theorem describe_memoized_per_key_witness :
    globalCount (globalKey "005xx000001X8Uz")
      (runOps demoEngine okProvider
        [Op.login demoCred, Op.getAllObject, Op.getAllObject, Op.getAllFields "Account",
         Op.getAllFields "Account", Op.describeObject "Account",
         Op.describeObject "Account"] initState).trace = 1 ∧
    fieldsCount (fieldsKey "Account" "005xx000001X8Uz")
      (runOps demoEngine okProvider
        [Op.login demoCred, Op.getAllObject, Op.getAllObject, Op.getAllFields "Account",
         Op.getAllFields "Account", Op.describeObject "Account",
         Op.describeObject "Account"] initState).trace = 1 ∧
    infoCount (infoKey "Account" "005xx000001X8Uz")
      (runOps demoEngine okProvider
        [Op.login demoCred, Op.getAllObject, Op.getAllObject, Op.getAllFields "Account",
         Op.getAllFields "Account", Op.describeObject "Account",
         Op.describeObject "Account"] initState).trace = 1 := by
  have h := describe_memoized_per_key demoEngine okProvider
    ⟨fun conn => ⟨["Account", "Contact"], rfl⟩, fun conn o => ⟨⟨o, ["Id", "Name"]⟩, rfl⟩⟩
    [Op.login demoCred, Op.getAllObject, Op.getAllObject, Op.getAllFields "Account",
     Op.getAllFields "Account", Op.describeObject "Account", Op.describeObject "Account"]
  exact ⟨(h.1 "005xx000001X8Uz").1 (by decide),
    (h.2.1 "Account" "005xx000001X8Uz").1 (by decide),
    (h.2.2.1 "Account" "005xx000001X8Uz").1 (by decide)⟩

/-- C4: when the provider reports a connect failure, `login` does not
reject: it returns `.ok` with the provider's (possibly unauthenticated)
handle, logs the error, and stores that handle under `con:<username>`. -/
theorem login_swallows_connect_error (eng : Engine) (p : Provider) (cred : Credential)
    (s : State) (conn : Conn) (e : PErr)
    (hin : CacheProvider.hasCache s.cache ("con:" ++ cred.username) = false)
    (hc : p.connect eng.defaultLoginUrl cred = (conn, some e)) :
    Engine.login eng p (some cred) s =
      (.ok (some (.conn conn)),
       ⟨CacheProvider.setCache
          (CacheProvider.setCache s.cache "currentCredentials" (.cred cred))
          ("con:" ++ cred.username) (.conn conn),
        s.trace ++ [PEvent.connectReq eng.defaultLoginUrl cred, PEvent.consoleError e]⟩) ∧
    CacheProvider.getCache (Engine.login eng p (some cred) s).2.cache
      ("con:" ++ cred.username) = some (.conn conn) := by
  have hfe := login_fresh_err eng p cred s conn e hin hc
  refine ⟨hfe, ?_⟩
  rw [hfe]
  exact getCache_setCache_self _ _ _

/-- C4 witness: concrete failing connect still resolves and caches. -/
theorem login_swallows_connect_error_witness :
    (Engine.login demoEngine errProvider (some demoCred) initState).1 =
      .ok (some (.conn demoConn)) ∧
    CacheProvider.getCache
      (Engine.login demoEngine errProvider (some demoCred) initState).2.cache
      ("con:" ++ demoCred.username) = some (.conn demoConn) := by
  have h := login_swallows_connect_error demoEngine errProvider demoCred initState demoConn
    "INVALID_LOGIN" (by decide) rfl
  exact ⟨by rw [h.1], h.2⟩

/-- C5: each mutation operation rejects when the provider reports a
transport error (with that error) or answers with `success=false` (then
with the null `err`, i.e. undefined), and otherwise resolves with the
provider's save result. -/
theorem mutations_reject_on_error_or_unsuccess (eng : Engine) (p : Provider)
    (r0 : Records) (o x : String) (s : State) (conn : Conn) (s1 : State)
    (hl : Engine.loginCurrent eng p s = (.ok conn, s1)) :
    ((∀ e, p.create conn o r0 = .error e →
        (Engine.insert eng p r0 o s).1 = .error (.perr e)) ∧
     (∀ ret, p.create conn o r0 = .ok ret → ret.success = false →
        (Engine.insert eng p r0 o s).1 = .error .jsUndefined) ∧
     (∀ ret, p.create conn o r0 = .ok ret → ret.success = true →
        (Engine.insert eng p r0 o s).1 = .ok (some (.saveResult ret)))) ∧
    ((∀ e, p.update conn o r0 = .error e →
        (Engine.update eng p r0 o s).1 = .error (.perr e)) ∧
     (∀ ret, p.update conn o r0 = .ok ret → ret.success = false →
        (Engine.update eng p r0 o s).1 = .error .jsUndefined) ∧
     (∀ ret, p.update conn o r0 = .ok ret → ret.success = true →
        (Engine.update eng p r0 o s).1 = .ok (some (.saveResult ret)))) ∧
    ((∀ e, p.upsert conn o x r0 = .error e →
        (Engine.upsert eng p r0 o x s).1 = .error (.perr e)) ∧
     (∀ ret, p.upsert conn o x r0 = .ok ret → ret.success = false →
        (Engine.upsert eng p r0 o x s).1 = .error .jsUndefined) ∧
     (∀ ret, p.upsert conn o x r0 = .ok ret → ret.success = true →
        (Engine.upsert eng p r0 o x s).1 = .ok (some (.saveResult ret)))) ∧
    ((∀ e, p.destroy conn o r0 = .error e →
        (Engine.delete eng p r0 o s).1 = .error (.perr e)) ∧
     (∀ ret, p.destroy conn o r0 = .ok ret → ret.success = false →
        (Engine.delete eng p r0 o s).1 = .error .jsUndefined) ∧
     (∀ ret, p.destroy conn o r0 = .ok ret → ret.success = true →
        (Engine.delete eng p r0 o s).1 = .ok (some (.saveResult ret)))) := by
  rw [show (Engine.insert eng p r0 o s).1 = Engine.mutationResult (p.create conn o r0) from
    by rw [insert_shape eng p r0 o s conn s1 hl]]
  rw [show (Engine.update eng p r0 o s).1 = Engine.mutationResult (p.update conn o r0) from
    by rw [update_shape eng p r0 o s conn s1 hl]]
  rw [show (Engine.upsert eng p r0 o x s).1 = Engine.mutationResult (p.upsert conn o x r0) from
    by rw [upsert_shape eng p r0 o x s conn s1 hl]]
  rw [show (Engine.delete eng p r0 o s).1 = Engine.mutationResult (p.destroy conn o r0) from
    by rw [delete_shape eng p r0 o s conn s1 hl]]
  refine ⟨⟨?_, ?_, ?_⟩, ⟨?_, ?_, ?_⟩, ⟨?_, ?_, ?_⟩, ⟨?_, ?_, ?_⟩⟩
  all_goals intro z hz
  all_goals rw [hz]
  all_goals unfold Engine.mutationResult
  all_goals dsimp only
  all_goals intro hsucc
  all_goals rw [hsucc]
  all_goals rfl

/-- C5 witness: `success=false` envelopes reject (insert) and transport
errors reject with the error (delete), while a success envelope resolves
(insert against the succeeding provider). -/
theorem mutations_reject_on_error_or_unsuccess_witness :
    (Engine.insert demoEngine errProvider ["rec"] "Account" demoLoggedInErr).1 =
      .error .jsUndefined ∧
    (Engine.delete demoEngine errProvider ["rec"] "Account" demoLoggedInErr).1 =
      .error (.perr "DML_FAIL") ∧
    (Engine.insert demoEngine okProvider ["rec"] "Account" demoLoggedIn).1 =
      .ok (some (.saveResult ⟨true, "001A"⟩)) := by
  have he := mutations_reject_on_error_or_unsuccess demoEngine errProvider ["rec"] "Account"
    "Ext" demoLoggedInErr demoConn
    (Engine.loginCurrent demoEngine errProvider demoLoggedInErr).2 rfl
  have hk := mutations_reject_on_error_or_unsuccess demoEngine okProvider ["rec"] "Account"
    "Ext" demoLoggedIn demoConn
    (Engine.loginCurrent demoEngine okProvider demoLoggedIn).2 rfl
  exact ⟨he.1.2.1 ⟨false, "001A"⟩ rfl rfl, he.2.2.2.1 "DML_FAIL" rfl,
    hk.1.2.2 ⟨true, "001A"⟩ rfl rfl⟩

/-- C6 (code defect): at a concrete failing query the source runs
`reject(console.error(err))`, so the promise rejects with `undefined` (the
return value of `console.error`) — not with the provider's error object —
while the error itself only goes to the console log. -/
theorem query_rejects_with_undefined_on_error :
    (Engine.query demoEngine errProvider "SELECT Id FROM Account" demoLoggedInErr).1 =
      .error .jsUndefined ∧
    Reject.jsUndefined ≠ Reject.perr "MALFORMED_QUERY" ∧
    (Engine.query demoEngine errProvider "SELECT Id FROM Account" demoLoggedInErr).2.trace =
      demoLoggedInErr.trace ++
        [PEvent.queryReq "SELECT Id FROM Account", PEvent.consoleError "MALFORMED_QUERY"] :=
  ⟨rfl, by decide, by decide⟩

/-- C7: `getLoginUrl` with no stored credential fails with the
unauthenticated error and an unchanged state; with a resolvable session it
returns the instance URL concatenated with the fixed frontdoor path
embedding the access token. -/
theorem getLoginUrl_requires_credential (eng : Engine) (p : Provider) (s : State) :
    (CacheProvider.hasCache s.cache "currentCredentials" = false →
      Engine.getLoginUrl eng p s = (.error .unauthenticated, s)) ∧
    (∀ conn s1, Engine.loginCurrent eng p s = (.ok conn, s1) →
      Engine.getLoginUrl eng p s =
        (.ok (conn.instanceUrl ++ "//secur/frontdoor.jsp?sid=" ++ conn.accessToken), s1)) := by
  constructor
  · intro hh
    have h2 : getCurrentCred s.cache = none := by
      unfold getCurrentCred
      rw [hasCache_false_getCache _ _ hh]
    unfold Engine.getLoginUrl Engine.loginCurrent
    rw [h2, login_none]
  · intro conn s1 hl
    unfold Engine.getLoginUrl
    rw [hl]

/-- C7 witness: unauthenticated at the initial state; after a demo login
the frontdoor URL of the demo session. -/
theorem getLoginUrl_requires_credential_witness :
    Engine.getLoginUrl demoEngine okProvider initState =
      (.error .unauthenticated, initState) ∧
    Engine.getLoginUrl demoEngine okProvider demoLoggedIn =
      (.ok (demoConn.instanceUrl ++ "//secur/frontdoor.jsp?sid=" ++ demoConn.accessToken),
       (Engine.loginCurrent demoEngine okProvider demoLoggedIn).2) :=
  ⟨(getLoginUrl_requires_credential demoEngine okProvider initState).1 rfl,
   (getLoginUrl_requires_credential demoEngine okProvider demoLoggedIn).2 demoConn
     (Engine.loginCurrent demoEngine okProvider demoLoggedIn).2 rfl⟩

/-- C8: `has` is false for a key on any store built without setting it;
`set` makes `has` true and `get` return the value, overwriting any prior
entry; after `delete` the key is absent and `get` is the absent marker;
`delete` of an absent key is a no-op. -/
theorem cache_ops_spec (k : String) (v : Value) (c : Cache) :
    (∀ ops : List CacheOp, (∀ v2, CacheOp.set k v2 ∉ ops) →
      CacheProvider.hasCache (applyCacheOps [] ops) k = false) ∧
    CacheProvider.hasCache (CacheProvider.setCache c k v) k = true ∧
    CacheProvider.getCache (CacheProvider.setCache c k v) k = some v ∧
    CacheProvider.hasCache (CacheProvider.deleteCache c k) k = false ∧
    CacheProvider.getCache (CacheProvider.deleteCache c k) k = none ∧
    (CacheProvider.hasCache c k = false → CacheProvider.deleteCache c k = c) :=
  ⟨fun ops hops => hasCache_never_set k ops hops [] rfl,
   hasCache_setCache_self c k v, getCache_setCache_self c k v,
   hasCache_deleteCache_self c k, getCache_deleteCache_self c k,
   deleteCache_absent c k⟩

/-- C8 witness at a concrete key, value, store and op sequence. -/
theorem cache_ops_spec_witness :
    CacheProvider.hasCache
      (applyCacheOps [] [CacheOp.set "other" (.fields ["Id"]), CacheOp.del "sid"])
      "sid" = false ∧
    CacheProvider.hasCache
      (CacheProvider.setCache [("sid", Value.fields ["Id"])] "sid" (.fields ["Name"]))
      "sid" = true ∧
    CacheProvider.getCache
      (CacheProvider.setCache [("sid", Value.fields ["Id"])] "sid" (.fields ["Name"]))
      "sid" = some (.fields ["Name"]) ∧
    CacheProvider.hasCache
      (CacheProvider.deleteCache [("sid", Value.fields ["Id"])] "sid") "sid" = false ∧
    CacheProvider.getCache
      (CacheProvider.deleteCache [("sid", Value.fields ["Id"])] "sid") "sid" = none ∧
    CacheProvider.deleteCache [] "sid" = [] := by
  have h := cache_ops_spec "sid" (.fields ["Name"]) [("sid", Value.fields ["Id"])]
  have h0 := cache_ops_spec "sid" (.fields ["Name"]) []
  exact ⟨h.1 [CacheOp.set "other" (.fields ["Id"]), CacheOp.del "sid"]
      (fun v2 hmem => by rcases List.mem_pair.mp hmem with h1 | h1 <;> simp at h1),
    h.2.1, h.2.2.1, h.2.2.2.1, h.2.2.2.2.1, h0.2.2.2.2.2 rfl⟩

/-- C9: one `query` invocation issues exactly one provider query request
with the given SOQL string and neither reads nor writes any cache entry
for it (the cache is exactly the post-login cache); two invocations with
different SOQL strings issue two independent requests. -/
theorem query_never_memoized (eng : Engine) (p : Provider) (q1 q2 : String) (s : State)
    (conn : Conn) (s1 : State) (hl : Engine.loginCurrent eng p s = (.ok conn, s1)) :
    (Engine.query eng p q1 s).2.cache = s1.cache ∧
    queryCalls (Engine.query eng p q1 s).2.trace = queryCalls s1.trace ++ [q1] ∧
    queryCalls (Engine.query eng p q2 (Engine.query eng p q1 s).2).2.trace =
      queryCalls s1.trace ++ [q1, q2] := by
  obtain ⟨hcache, hcalls, -⟩ := query_shape eng p q1 s conn s1 hl
  refine ⟨hcache, hcalls, ?_⟩
  obtain ⟨cred, hl2⟩ := loginCurrent_again eng p s conn s1 hl (Engine.query eng p q1 s).2.trace
  have hl3 : Engine.loginCurrent eng p (Engine.query eng p q1 s).2 =
      (.ok conn, ⟨CacheProvider.setCache s1.cache "currentCredentials" (.cred cred),
        (Engine.query eng p q1 s).2.trace⟩) := by
    rw [show (Engine.query eng p q1 s).2 =
      (⟨s1.cache, (Engine.query eng p q1 s).2.trace⟩ : State) from by rw [← hcache]]
    exact hl2
  obtain ⟨-, hcalls2, -⟩ := query_shape eng p q2 (Engine.query eng p q1 s).2 conn _ hl3
  rw [hcalls2]
  dsimp only
  rw [hcalls, List.append_assoc]
  rfl

/-- C9 witness: two concrete queries from a logged-in state produce the
two provider requests in order. -/
theorem query_never_memoized_witness :
    (Engine.query demoEngine okProvider "SELECT A" demoLoggedIn).2.cache =
      (Engine.loginCurrent demoEngine okProvider demoLoggedIn).2.cache ∧
    queryCalls (Engine.query demoEngine okProvider "SELECT B"
        (Engine.query demoEngine okProvider "SELECT A" demoLoggedIn).2).2.trace =
      queryCalls (Engine.loginCurrent demoEngine okProvider demoLoggedIn).2.trace ++
        ["SELECT A", "SELECT B"] := by
  have h := query_never_memoized demoEngine okProvider "SELECT A" "SELECT B" demoLoggedIn
    demoConn (Engine.loginCurrent demoEngine okProvider demoLoggedIn).2 rfl
  exact ⟨h.1, h.2.2⟩

/-- C10 counterexample: for `describeObject` the claim's "no cache entry
is written under the objectInfo key" is false — at a concrete failing
describe the call rejects with the error, yet the objectInfo key, absent
after login, is present afterwards (and holds the undefined value). -/
theorem describeObject_error_writes_cache_counterexample :
    CacheProvider.hasCache
      (Engine.loginCurrent demoEngine errProvider demoLoggedInErr).2.cache
      ("objectInfo:" ++ ("Account" ++ (":" ++ demoConn.userId))) = false ∧
    (Engine.describeObject demoEngine errProvider "Account" demoLoggedInErr).1 =
      .error (.perr "DESCRIBE_FAIL") ∧
    CacheProvider.hasCache
      (Engine.describeObject demoEngine errProvider "Account" demoLoggedInErr).2.cache
      ("objectInfo:" ++ ("Account" ++ (":" ++ demoConn.userId))) = true ∧
    CacheProvider.getCache
      (Engine.describeObject demoEngine errProvider "Account" demoLoggedInErr).2.cache
      ("objectInfo:" ++ ("Account" ++ (":" ++ demoConn.userId))) = some .jsUndefined :=
  ⟨by decide, rfl, by decide, by decide⟩

/-- C10 (amended): on a provider describe error with the memo key
uncached, all three methods reject with that error; `getAllObject` and
`getAllFields` leave the cache unchanged (still exactly the post-login
cache: their callbacks throw on an attribute access of the undefined
result before `setCache`), whereas `describeObject` still runs
`setCache(objectInfoKey, meta)` with `meta` undefined, writing an
undefined entry under the objectInfo key. -/
theorem describe_error_cache_effects (eng : Engine) (p : Provider)
    (o : String) (s : State) (conn : Conn) (s1 : State) (e : PErr)
    (hl : Engine.loginCurrent eng p s = (.ok conn, s1)) :
    (CacheProvider.hasCache s1.cache ("objectList:" ++ conn.userId) = false →
      p.describeGlobal conn = .error e →
      Engine.getAllObject eng p s =
        (.error (.perr e),
         ⟨s1.cache, s1.trace ++ [PEvent.describeGlobalReq conn.userId]⟩)) ∧
    (CacheProvider.hasCache s1.cache
        ("objectFields:" ++ (o ++ (":" ++ conn.userId))) = false →
      p.describe conn o = .error e →
      Engine.getAllFields eng p o s =
        (.error (.perr e),
         ⟨s1.cache, s1.trace ++ [PEvent.describeFieldsReq o conn.userId]⟩)) ∧
    (CacheProvider.hasCache s1.cache
        ("objectInfo:" ++ (o ++ (":" ++ conn.userId))) = false →
      p.describe conn o = .error e →
      Engine.describeObject eng p o s =
        (.error (.perr e),
         ⟨CacheProvider.setCache s1.cache
            ("objectInfo:" ++ (o ++ (":" ++ conn.userId))) .jsUndefined,
          s1.trace ++ [PEvent.describeInfoReq o conn.userId]⟩)) := by
  refine ⟨fun hm he => ?_, fun hm he => ?_, fun hm he => ?_⟩
  · unfold Engine.getAllObject
    rw [hl]
    dsimp only
    rw [if_neg (by simp [hm]), he]
  · unfold Engine.getAllFields
    rw [hl]
    dsimp only
    rw [if_neg (by simp [hm]), he]
  · unfold Engine.describeObject
    rw [hl]
    dsimp only
    rw [if_neg (by simp [hm]), he]

/-- C10 witness against the failing provider at the logged-in demo state. -/
theorem describe_error_cache_effects_witness :
    Engine.getAllObject demoEngine errProvider demoLoggedInErr =
      (.error (.perr "DESCRIBE_FAIL"),
       ⟨(Engine.loginCurrent demoEngine errProvider demoLoggedInErr).2.cache,
        (Engine.loginCurrent demoEngine errProvider demoLoggedInErr).2.trace ++
          [PEvent.describeGlobalReq demoConn.userId]⟩) ∧
    Engine.getAllFields demoEngine errProvider "Account" demoLoggedInErr =
      (.error (.perr "DESCRIBE_FAIL"),
       ⟨(Engine.loginCurrent demoEngine errProvider demoLoggedInErr).2.cache,
        (Engine.loginCurrent demoEngine errProvider demoLoggedInErr).2.trace ++
          [PEvent.describeFieldsReq "Account" demoConn.userId]⟩) ∧
    Engine.describeObject demoEngine errProvider "Account" demoLoggedInErr =
      (.error (.perr "DESCRIBE_FAIL"),
       ⟨CacheProvider.setCache
          (Engine.loginCurrent demoEngine errProvider demoLoggedInErr).2.cache
          ("objectInfo:" ++ ("Account" ++ (":" ++ demoConn.userId))) .jsUndefined,
        (Engine.loginCurrent demoEngine errProvider demoLoggedInErr).2.trace ++
          [PEvent.describeInfoReq "Account" demoConn.userId]⟩) := by
  have h := describe_error_cache_effects demoEngine errProvider "Account"
    demoLoggedInErr demoConn (Engine.loginCurrent demoEngine errProvider demoLoggedInErr).2
    "DESCRIBE_FAIL" rfl
  exact ⟨h.1 (by decide) rfl, h.2.1 (by decide) rfl, h.2.2 (by decide) rfl⟩
